import Mathlib

/-! # mos-chinadns, `dispatcher/ipset`: the IP-set handler

A shallow embedding of `dispatcher/ipset/ipset_handler_linux.go`:

* `NewIPSetHandler` compiles the `ipset` section of the configuration into a `Handler`;
* `Handler.ApplyIPSet` walks the rules of a handler over a query and its response and
  hands every selected address to `AddCIDR`.

Collaborators that live outside the file are parameters of the embedding:

* `policy.NewDomainPolicies` (it reads a domain list) is a state-passing function
  `String → τ → Except GoError DomainPolicies × τ`;
* `AddCIDR` (it talks to the kernel) is a state-passing function
  `Entry → σ → Option GoError × σ`, `none` being the Go `nil` error;
* `net.IP.String`, used by the `%s` verb, is a function `NetIP → String`.

The method `Match` of a matcher is taken to be a function of the name, and a `nil`
error of `policy.NewDomainPolicies` to come with a usable matcher.
Go pointers are taken to be non-nil (`c`, `q`, `r`, the rules and the answer records).
The call `logger.GetStd().Debugf` writes a debug line and has no influence on the
control flow or on the returned error; it is left out.
-/

namespace Ipset

/-! ## Go values -/

/-- Go `error` values: a plain error carrying its text, or the value built by
`fmt.Errorf` with a `%w` verb, which keeps the formatted text and the wrapped error. -/
inductive GoError where
  | errorString (s : String)
  | wrapError (msg : String) (err : GoError)
  deriving DecidableEq

/-- Method `Error()` of a Go error. -/
def GoError.Error : GoError → String
  | .errorString s => s
  | .wrapError msg _ => msg

/-- Method `Unwrap()` as seen by `errors.Unwrap`. -/
def GoError.Unwrap : GoError → Option GoError
  | .errorString _ => none
  | .wrapError _ err => some err

/-- Go `uint8`. -/
abbrev uint8 := Fin 256

/-- Go `net.IP`, a byte slice. -/
abbrev NetIP := List uint8

/-! ## `github.com/miekg/dns` -/

/-- A `dns.Question`; only `Name` is read by the handler. -/
structure Question where
  Name : String
  Qtype : Nat
  Qclass : Nat
  deriving DecidableEq

/-- A `dns.RR`, by dynamic type: `*dns.A`, `*dns.AAAA`, `*dns.CNAME`, or any other
record (kept by its type code). -/
inductive RR where
  | A (A : NetIP)
  | AAAA (AAAA : NetIP)
  | CNAME (Target : String)
  | other (rrtype : Nat)
  deriving DecidableEq

/-- A `dns.Msg`; the handler reads `Id` (for logging), `Question` and `Answer`. -/
structure Msg where
  Id : Nat
  Question : List Question
  Answer : List RR
  deriving DecidableEq

/-! ## `dispatcher/policy` -/

/-- Modelled from the spec: the mode of a policy action. The constants of package
`policy` are not in the file; the matcher answers "accept" or something else, so the
mode is `PolicyActionAccept` or another mode kept by its code. -/
inductive ActionMode where
  | PolicyActionAccept
  | otherMode (code : Nat)
  deriving DecidableEq

/-- A `policy.Action`; only `Mode` is read by the handler. -/
structure Action where
  Mode : ActionMode
  deriving DecidableEq

/-- A `*policy.DomainPolicies`, seen through its method `Match`, which returns an
action or `nil`. -/
structure DomainPolicies where
  Match : String → Option Action

/-! ## `dispatcher/config` -/

/-- One element of `c.IPSet.Rule`. -/
structure IPSetRuleConfig where
  SetName4 : String
  SetName6 : String
  Domain : String
  deriving DecidableEq

/-- The `IPSet` section of the configuration. -/
structure IPSetConfig where
  CheckCNAME : Bool
  Mask4 : uint8
  Mask6 : uint8
  Rule : List IPSetRuleConfig
  deriving DecidableEq

/-- The part of `config.Config` read by `NewIPSetHandler`. -/
structure Config where
  IPSet : IPSetConfig
  deriving DecidableEq

/-! ## Package `ipset` -/

/-- The `Entry` handed to `AddCIDR`. -/
structure Entry where
  IP : NetIP
  SetName : String
  Mask : uint8
  IsNET6 : Bool
  deriving DecidableEq

/-- The struct `rule`. -/
structure rule where
  setName4 : String
  setName6 : String
  domainPolicies : DomainPolicies

/-- The struct `Handler`. -/
structure Handler where
  checkCAME : Bool
  mask4 : uint8
  mask6 : uint8
  rules : List rule

/-! ## `NewIPSetHandler` -/

/-- The error of line 63:
`fmt.Errorf("failed to init ipset domain policies %s: %w", ipsetConfig.Domain, err)`. -/
def initError (domain : String) (err : GoError) : GoError :=
  .wrapError ("failed to init ipset domain policies " ++ domain ++ ": " ++ err.Error) err

/-- The loop of lines 56-73 over `c.IPSet.Rule`, with the handler built so far; the
result is the pair `(*Handler, error)` that `NewIPSetHandler` returns. The two `len`
tests are on byte length, which is zero exactly when the length in characters is. -/
def compileRules {τ : Type} (NewDomainPolicies : String → τ → Except GoError DomainPolicies × τ) :
    List IPSetRuleConfig → Handler → τ → (Option Handler × Option GoError) × τ
  | [], h, t => ((some h, none), t)
  | ipsetConfig :: rest, h, t =>
    if ipsetConfig.SetName4.length = 0 ∧ ipsetConfig.SetName6.length = 0 then
      compileRules NewDomainPolicies rest h t
    else
      match NewDomainPolicies ipsetConfig.Domain t with
      | (.error err, t') => ((none, some (initError ipsetConfig.Domain err)), t')
      | (.ok dps, t') =>
        compileRules NewDomainPolicies rest
          { h with rules := h.rules ++ [{ setName4 := ipsetConfig.SetName4,
                                           setName6 := ipsetConfig.SetName6,
                                           domainPolicies := dps }] } t'

/-- The handler after lines 43-54: fields copied from the configuration, the two
defaults substituted, no rule yet. -/
def initHandler (c : Config) : Handler :=
  let h : Handler :=
    { checkCAME := c.IPSet.CheckCNAME, mask4 := c.IPSet.Mask4, mask6 := c.IPSet.Mask6,
      rules := [] }
  let h : Handler := if h.mask4 = 0 then { h with mask4 := 24 } else h
  let h : Handler := if h.mask6 = 0 then { h with mask6 := 32 } else h
  h

/-- The function `NewIPSetHandler`. -/
def NewIPSetHandler {τ : Type} (NewDomainPolicies : String → τ → Except GoError DomainPolicies × τ)
    (c : Config) (t : τ) : (Option Handler × Option GoError) × τ :=
  compileRules NewDomainPolicies c.IPSet.Rule (initHandler c) t

/-! ## `Handler.ApplyIPSet` -/

/-- The test of lines 81 and 89:
`action := rule.domainPolicies.Match(name); action != nil && action.Mode == policy.PolicyActionAccept`. -/
def rule.accepts (ru : rule) (name : String) : Bool :=
  match ru.domainPolicies.Match name with
  | some action => decide (action.Mode = ActionMode.PolicyActionAccept)
  | none => false

/-- The loop of lines 80-85 over `q.Question`: the value of `domainMatched` after it. -/
def matchQuestion (ru : rule) : List Question → Bool
  | [] => false
  | qu :: rest => if ru.accepts qu.Name then true else matchQuestion ru rest

/-- The loop of lines 87-94 over `r.Answer`: the value of `domainMatched` after it. -/
def matchCNAME (ru : rule) : List RR → Bool
  | [] => false
  | .CNAME target :: rest => if ru.accepts target then true else matchCNAME ru rest
  | _ :: rest => matchCNAME ru rest

/-- The value of `domainMatched` at line 97. -/
def domainMatched (h : Handler) (ru : rule) (q r : Msg) : Bool :=
  let m := matchQuestion ru q.Question
  if !m && h.checkCAME then matchCNAME ru r.Answer else m

/-- The type switch of lines 99-114: the entry filled for an answer record, `none` for
the `default: continue` branch. -/
def newEntry (h : Handler) (ru : rule) : RR → Option Entry
  | .A a => some { IP := a, SetName := ru.setName4, Mask := h.mask4, IsNET6 := false }
  | .AAAA a => some { IP := a, SetName := ru.setName6, Mask := h.mask6, IsNET6 := true }
  | _ => none

/-- The error of line 123:
`fmt.Errorf("failed to add ip %s to set %s: %w", entry.IP, entry.SetName, err)`. -/
def addError (ipString : NetIP → String) (entry : Entry) (err : GoError) : GoError :=
  .wrapError
    ("failed to add ip " ++ ipString entry.IP ++ " to set " ++ entry.SetName ++ ": " ++ err.Error)
    err

/-- The loop of lines 98-125 over `r.Answer` for one matched rule. The result is the
error returned from inside the loop, or `none` when the loop runs to its end. -/
def applyAnswers {σ : Type} (ipString : NetIP → String)
    (AddCIDR : Entry → σ → Option GoError × σ) (h : Handler) (ru : rule) :
    List RR → σ → Option GoError × σ
  | [], s => (none, s)
  | rr :: rest, s =>
    match newEntry h ru rr with
    | none => applyAnswers ipString AddCIDR h ru rest s
    | some entry =>
      if entry.SetName.length = 0 then
        applyAnswers ipString AddCIDR h ru rest s
      else
        match AddCIDR entry s with
        | (some err, s') => (some (addError ipString entry err), s')
        | (none, s') => applyAnswers ipString AddCIDR h ru rest s'

/-- The body of the loop over `h.rules` (lines 78-126) for one rule. -/
def applyRule {σ : Type} (ipString : NetIP → String)
    (AddCIDR : Entry → σ → Option GoError × σ) (h : Handler) (ru : rule) (q r : Msg)
    (s : σ) : Option GoError × σ :=
  if domainMatched h ru q r then applyAnswers ipString AddCIDR h ru r.Answer s
  else (none, s)

/-- The loop of lines 77-127 over the rules, ending in `return nil`. -/
def applyRules {σ : Type} (ipString : NetIP → String)
    (AddCIDR : Entry → σ → Option GoError × σ) (h : Handler) (q r : Msg) :
    List rule → σ → Option GoError × σ
  | [], s => (none, s)
  | ru :: rest, s =>
    match applyRule ipString AddCIDR h ru q r s with
    | (some err, s') => (some err, s')
    | (none, s') => applyRules ipString AddCIDR h q r rest s'

/-- The method `(h *Handler) ApplyIPSet(q, r *dns.Msg) error`. -/
def ApplyIPSet {σ : Type} (ipString : NetIP → String)
    (AddCIDR : Entry → σ → Option GoError × σ) (h : Handler) (q r : Msg) (s : σ) :
    Option GoError × σ :=
  applyRules ipString AddCIDR h q r h.rules s

/-! ## Observing the calls of `AddCIDR` -/

/-- One observed call of `AddCIDR`: the entry passed and the error returned. -/
abbrev Call := Entry × Option GoError

/-- The primitive `AddCIDR` with a journal: every call is appended, with its result, to
the list carried next to the state of the primitive. -/
def recordAddCIDR {σ : Type} (AddCIDR : Entry → σ → Option GoError × σ) :
    Entry → List Call × σ → Option GoError × (List Call × σ)
  | e, (log, s) => ((AddCIDR e s).1, (log ++ [(e, (AddCIDR e s).1)], (AddCIDR e s).2))

/-- A primitive that succeeds on every entry and keeps no state. -/
def okAddCIDR : Entry → Unit → Option GoError × Unit :=
  fun _ s => (none, s)

/-- The result and the entries passed to `AddCIDR`, in call order, of one `ApplyIPSet`
call that starts with an empty journal. -/
def observe {σ : Type} (ipString : NetIP → String)
    (AddCIDR : Entry → σ → Option GoError × σ) (h : Handler) (q r : Msg) (s : σ) :
    Option GoError × List Call :=
  let out := ApplyIPSet ipString (recordAddCIDR AddCIDR) h q r ([], s)
  (out.1, out.2.1)

/-! ## The entries a call selects, and their injection -/

/-- The entry that a matched rule passes to `AddCIDR` for one answer record: the entry
of the type switch, unless its set name is empty (lines 116-118). -/
def selectEntry (h : Handler) (ru : rule) (rr : RR) : Option Entry :=
  match newEntry h ru rr with
  | some entry => if entry.SetName.length = 0 then none else some entry
  | none => none

/-- The entries one rule selects from a response, in answer order. -/
def ruleEntries (h : Handler) (ru : rule) (q r : Msg) : List Entry :=
  if domainMatched h ru q r then r.Answer.filterMap (selectEntry h ru) else []

/-- The entries a handler selects, rule after rule. -/
def plannedEntries (h : Handler) (q r : Msg) : List Entry :=
  h.rules.flatMap (fun ru => ruleEntries h ru q r)

/-- Passing a list of entries to `AddCIDR` one after the other, stopping at the first
failure, which is returned with its entry. -/
def inject {σ : Type} (AddCIDR : Entry → σ → Option GoError × σ) :
    List Entry → σ → Option (Entry × GoError) × σ
  | [], s => (none, s)
  | e :: es, s =>
    match AddCIDR e s with
    | (some err, s') => (some (e, err), s')
    | (none, s') => inject AddCIDR es s'

/-- The calls made by `inject`, with their results. -/
def callTrace {σ : Type} (AddCIDR : Entry → σ → Option GoError × σ) :
    List Entry → σ → List Call
  | [], _ => []
  | e :: es, s =>
    match AddCIDR e s with
    | (some err, _) => [(e, some err)]
    | (none, s') => (e, none) :: callTrace AddCIDR es s'

/-- The error `ApplyIPSet` builds from a failed injection. -/
def wrapFailure (ipString : NetIP → String) : Option (Entry × GoError) → Option GoError
  | none => none
  | some (e, err) => some (addError ipString e err)

/-! ## Observing the calls of `policy.NewDomainPolicies` -/

/-- One observed call of `policy.NewDomainPolicies`: the domain list named and the
result returned. -/
abbrev Construction := String × Except GoError DomainPolicies

/-- The constructor `policy.NewDomainPolicies` with a journal: every call is appended,
with its result, to the list carried next to the state of the constructor. -/
def recordNewDomainPolicies {τ : Type}
    (NewDomainPolicies : String → τ → Except GoError DomainPolicies × τ) :
    String → List Construction × τ → Except GoError DomainPolicies × (List Construction × τ)
  | d, (log, t) =>
    ((NewDomainPolicies d t).1,
      (log ++ [(d, (NewDomainPolicies d t).1)], (NewDomainPolicies d t).2))

/-- The result and the constructor calls, in call order, of one `NewIPSetHandler` call
that starts with an empty journal. -/
def observeNew {τ : Type} (NewDomainPolicies : String → τ → Except GoError DomainPolicies × τ)
    (c : Config) (t : τ) : (Option Handler × Option GoError) × List Construction :=
  let out := NewIPSetHandler (recordNewDomainPolicies NewDomainPolicies) c ([], t)
  (out.1, out.2.1)

/-- A rule specification names at least one set. -/
def hasSetName (spec : IPSetRuleConfig) : Bool :=
  decide (spec.SetName4 ≠ "" ∨ spec.SetName6 ≠ "")

/-- Constructing the matchers of a list of specifications one after the other,
stopping at the first failure, which is returned with the domain list it is for. -/
def buildRules {τ : Type} (NewDomainPolicies : String → τ → Except GoError DomainPolicies × τ) :
    List IPSetRuleConfig → τ → Except (String × GoError) (List rule) × τ
  | [], t => (.ok [], t)
  | spec :: rest, t =>
    match NewDomainPolicies spec.Domain t with
    | (.error err, t') => (.error (spec.Domain, err), t')
    | (.ok dps, t') =>
      match buildRules NewDomainPolicies rest t' with
      | (.ok rs, t'') => (.ok (⟨spec.SetName4, spec.SetName6, dps⟩ :: rs), t'')
      | (.error x, t'') => (.error x, t'')

/-- The constructor calls made by `buildRules`, with their results. -/
def buildTrace {τ : Type} (NewDomainPolicies : String → τ → Except GoError DomainPolicies × τ) :
    List IPSetRuleConfig → τ → List Construction
  | [], _ => []
  | spec :: rest, t =>
    match NewDomainPolicies spec.Domain t with
    | (.error err, _) => [(spec.Domain, .error err)]
    | (.ok dps, t') => (spec.Domain, .ok dps) :: buildTrace NewDomainPolicies rest t'

/-- The pair `(*Handler, error)` returned after `buildRules`, for the handler `h` built
before the loop. -/
def finish (h : Handler) : Except (String × GoError) (List rule) → Option Handler × Option GoError
  | .ok rs => (some { h with rules := h.rules ++ rs }, none)
  | .error (d, err) => (none, some (initError d err))

/-! ## Sample collaborators and inputs -/

/-- A matcher that accepts exactly one name. -/
def acceptOnly (name : String) : DomainPolicies :=
  ⟨fun n => if n = name then some ⟨ActionMode.PolicyActionAccept⟩ else none⟩

/-- A stateless constructor: the domain list named `d` holds the single name `d`. -/
def sampleNewDomainPolicies : String → Unit → Except GoError DomainPolicies × Unit :=
  fun d t => (.ok (acceptOnly d), t)

/-- A rendering of addresses for the examples: the bytes in decimal, separated by dots. -/
def sampleIPString : NetIP → String :=
  fun ip => String.intercalate "." (ip.map (fun b => toString b.val))

/-- A primitive that counts its calls and fails on the second one. -/
def failOnSecond : Entry → Nat → Option GoError × Nat :=
  fun _ n => (if n = 1 then some (.errorString "no such set") else none, n + 1)

/-- The address `1.2.3.4`. -/
def ip1234 : NetIP := [1, 2, 3, 4]

/-- The address `::1`. -/
def ipLoop6 : NetIP := [0, 0, 0, 0, 0, 0, 0, 0, 0, 0, 0, 0, 0, 0, 0, 1]

/-- A query for `example.com.`. -/
def exampleQuery : Msg := ⟨7, [⟨"example.com.", 1, 1⟩], []⟩

/-- A response carrying `A 1.2.3.4` and `AAAA ::1`. -/
def exampleResponse : Msg := ⟨7, [⟨"example.com.", 1, 1⟩], [.A ip1234, .AAAA ipLoop6]⟩

/-- A response carrying three `A` records. -/
def threeAResponse : Msg :=
  ⟨7, [⟨"example.com.", 1, 1⟩], [.A ip1234, .A [5, 6, 7, 8], .A [9, 9, 9, 9]]⟩

/-- The rule `example.com. -> cn4, cn6`. -/
def exampleRule : rule := ⟨"cn4", "cn6", acceptOnly "example.com."⟩

/-- The handler compiled from masks `0/0` and the rule `example.com. -> cn4, cn6`. -/
def exampleHandler : Handler := ⟨false, 24, 32, [exampleRule]⟩

/-- The configuration with masks `0/0` and the rule `example.com. -> cn4, cn6`. -/
def exampleConfig : Config := ⟨⟨false, 0, 0, [⟨"cn4", "cn6", "example.com."⟩]⟩⟩

/-- A query for `other.test.`, a name `exampleRule` does not accept. -/
def otherQuery : Msg := ⟨8, [⟨"other.test.", 1, 1⟩], []⟩

/-- A response that goes through the alias `example.com.` to `1.2.3.4`. -/
def cnameResponse : Msg :=
  ⟨8, [⟨"other.test.", 1, 1⟩], [.CNAME "example.com.", .A ip1234]⟩

/-- The rule `alias.test. -> alt4`, with no IPv6 set. -/
def aliasRule : rule := ⟨"alt4", "", acceptOnly "alias.test."⟩

/-- The rule `example.com. -> cn6` for IPv6 only. -/
def v6OnlyRule : rule := ⟨"", "cn6", acceptOnly "example.com."⟩

/-- A matcher that accepts the names of a list. -/
def acceptAny (names : List String) : DomainPolicies :=
  ⟨fun n => if n ∈ names then some ⟨ActionMode.PolicyActionAccept⟩ else none⟩

/-- The rule `example.com., cdn.example.net. -> cn4, cn6`. -/
def wideRule : rule := ⟨"cn4", "cn6", acceptAny ["example.com.", "cdn.example.net."]⟩

/-- The rule `example.com. -> alt4`, overlapping `wideRule`. -/
def overlapRule : rule := ⟨"alt4", "", acceptOnly "example.com."⟩

/-- A handler that looks at aliases, with two rules that both accept `example.com.`. -/
def overlapHandler : Handler := ⟨true, 24, 32, [wideRule, overlapRule]⟩

/-- A response that goes through the alias `cdn.example.net.` to `1.2.3.4`. -/
def cdnResponse : Msg :=
  ⟨8, [⟨"other.test.", 1, 1⟩], [.CNAME "cdn.example.net.", .A ip1234]⟩

/-- A handler that does not look at aliases. -/
def plainHandler : Handler := ⟨false, 24, 32, [exampleRule]⟩

/-- A handler that looks at aliases, with two rules. -/
def cnameHandler : Handler := ⟨true, 24, 32, [exampleRule, aliasRule]⟩

/-- A constructor for which the list `missing.list` cannot be read. -/
def failingNewDomainPolicies : String → Unit → Except GoError DomainPolicies × Unit :=
  fun d t =>
    if d = "missing.list" then (.error (.errorString "open missing.list: no such file"), t)
    else (.ok (acceptOnly d), t)

/-- A configuration of three specifications, the second with no set name. -/
def threeSpecConfig : Config :=
  ⟨⟨true, 0, 64, [⟨"cn4", "", "example.com."⟩, ⟨"", "", "missing.list"⟩,
      ⟨"", "cn6", "alias.test."⟩]⟩⟩

/-- A configuration whose second specification names the unreadable list. -/
def brokenConfig : Config :=
  ⟨⟨false, 16, 0, [⟨"", "", "missing.list"⟩, ⟨"cn4", "", "example.com."⟩,
      ⟨"", "cn6", "missing.list"⟩, ⟨"x4", "x6", "alias.test."⟩]⟩⟩

/-- A handler holding the rule `example.com. -> cn4, cn6` twice. -/
def twinHandler : Handler := ⟨false, 24, 32, [exampleRule, exampleRule]⟩

/-- A configuration with the masks `200/200` and the rule `example.com. -> cn4, cn6`. -/
def wideMaskConfig : Config := ⟨⟨false, 200, 200, [⟨"cn4", "cn6", "example.com."⟩]⟩⟩

/-- The calls, as pairs of family flag and mask, that the handler compiled from a
configuration makes on the query `example.com.` answered by `A 1.2.3.4`, `AAAA ::1`. -/
def compiledMasks (c : Config) : List (Bool × Nat) :=
  match (NewIPSetHandler sampleNewDomainPolicies c ()).1.1 with
  | some h =>
    (observe sampleIPString okAddCIDR h exampleQuery exampleResponse ()).2.map
      (fun call => (call.1.IsNET6, call.1.Mask.val))
  | none => []

/-- A response with an alias and a text record, and no address record. -/
def noAddressResponse : Msg :=
  ⟨7, [⟨"example.com.", 1, 1⟩], [.CNAME "cdn.example.net.", .other 16]⟩

/-- An answer record that is neither `A`, `AAAA` nor `CNAME`. -/
def isOther : RR → Bool
  | .other _ => true
  | _ => false

/-- An answer record of type `A` or `AAAA`. -/
def isAddress : RR → Bool
  | .A _ => true
  | .AAAA _ => true
  | _ => false

/-- The response `A 1.2.3.4`, `AAAA ::1` with a text record and a signature record
put in. -/
def paddedResponse : Msg :=
  ⟨7, [⟨"example.com.", 1, 1⟩], [.other 16, .A ip1234, .other 46, .AAAA ipLoop6]⟩

/-- A handler with three rules: `example.com. -> cn4, cn6`, `alias.test. -> alt4` and
`example.com. -> cn6` for IPv6 only. -/
def mixedHandler : Handler := ⟨false, 24, 32, [exampleRule, aliasRule, v6OnlyRule]⟩

/-! ## Lemmas on the embedding -/

theorem applyAnswers_eq_inject {σ : Type} (ipString : NetIP → String)
    (AddCIDR : Entry → σ → Option GoError × σ) (h : Handler) (ru : rule)
    (rrs : List RR) (s : σ) :
    applyAnswers ipString AddCIDR h ru rrs s =
      (wrapFailure ipString (inject AddCIDR (rrs.filterMap (selectEntry h ru)) s).1,
        (inject AddCIDR (rrs.filterMap (selectEntry h ru)) s).2) := by
  induction rrs generalizing s with
  | nil => rfl
  | cons rr rest ih =>
    cases hne : newEntry h ru rr with
    | none =>
      have hsel : selectEntry h ru rr = none := by simp [selectEntry, hne]
      simp [applyAnswers, hne, List.filterMap_cons, hsel, ih]
    | some entry =>
      by_cases hlen : entry.SetName.length = 0
      · have hsel : selectEntry h ru rr = none := by simp [selectEntry, hne, hlen]
        simp [applyAnswers, hne, hlen, List.filterMap_cons, hsel, ih]
      · have hsel : selectEntry h ru rr = some entry := by simp [selectEntry, hne, hlen]
        rcases hp : AddCIDR entry s with ⟨res, s'⟩
        cases res with
        | none => simp [applyAnswers, hne, hlen, List.filterMap_cons, hsel, inject, hp, ih]
        | some err =>
          simp [applyAnswers, hne, hlen, List.filterMap_cons, hsel, inject, hp, wrapFailure]

theorem inject_append {σ : Type} (AddCIDR : Entry → σ → Option GoError × σ)
    (es fs : List Entry) (s : σ) :
    inject AddCIDR (es ++ fs) s =
      match inject AddCIDR es s with
      | (some x, s') => (some x, s')
      | (none, s') => inject AddCIDR fs s' := by
  induction es generalizing s with
  | nil => rfl
  | cons e es ih =>
    rcases hp : AddCIDR e s with ⟨res, s'⟩
    cases res with
    | none => simp [inject, hp, ih]
    | some err => simp [inject, hp]

theorem applyRule_eq_inject {σ : Type} (ipString : NetIP → String)
    (AddCIDR : Entry → σ → Option GoError × σ) (h : Handler) (ru : rule) (q r : Msg)
    (s : σ) :
    applyRule ipString AddCIDR h ru q r s =
      (wrapFailure ipString (inject AddCIDR (ruleEntries h ru q r) s).1,
        (inject AddCIDR (ruleEntries h ru q r) s).2) := by
  unfold applyRule ruleEntries
  by_cases hm : domainMatched h ru q r = true
  · simp [hm, applyAnswers_eq_inject]
  · simp [hm, inject, wrapFailure]

theorem applyRules_eq_inject {σ : Type} (ipString : NetIP → String)
    (AddCIDR : Entry → σ → Option GoError × σ) (h : Handler) (q r : Msg)
    (rules : List rule) (s : σ) :
    applyRules ipString AddCIDR h q r rules s =
      (wrapFailure ipString
          (inject AddCIDR (rules.flatMap (fun ru => ruleEntries h ru q r)) s).1,
        (inject AddCIDR (rules.flatMap (fun ru => ruleEntries h ru q r)) s).2) := by
  induction rules generalizing s with
  | nil => rfl
  | cons ru rest ih =>
    rw [applyRules, applyRule_eq_inject, List.flatMap_cons, inject_append]
    rcases hp : inject AddCIDR (ruleEntries h ru q r) s with ⟨res, s'⟩
    cases res with
    | none => simp [wrapFailure, ih]
    | some x => simp [wrapFailure]

theorem ApplyIPSet_eq_inject {σ : Type} (ipString : NetIP → String)
    (AddCIDR : Entry → σ → Option GoError × σ) (h : Handler) (q r : Msg) (s : σ) :
    ApplyIPSet ipString AddCIDR h q r s =
      (wrapFailure ipString (inject AddCIDR (plannedEntries h q r) s).1,
        (inject AddCIDR (plannedEntries h q r) s).2) :=
  applyRules_eq_inject ipString AddCIDR h q r h.rules s

theorem inject_record {σ : Type} (AddCIDR : Entry → σ → Option GoError × σ)
    (es : List Entry) (log : List Call) (s : σ) :
    inject (recordAddCIDR AddCIDR) es (log, s) =
      ((inject AddCIDR es s).1, (log ++ callTrace AddCIDR es s, (inject AddCIDR es s).2)) := by
  induction es generalizing log s with
  | nil => simp [inject, callTrace]
  | cons e es ih =>
    rcases hp : AddCIDR e s with ⟨res, s'⟩
    cases res with
    | none => simp [inject, callTrace, recordAddCIDR, hp, ih]
    | some err => simp [inject, callTrace, recordAddCIDR, hp]

theorem observe_eq {σ : Type} (ipString : NetIP → String)
    (AddCIDR : Entry → σ → Option GoError × σ) (h : Handler) (q r : Msg) (s : σ) :
    observe ipString AddCIDR h q r s =
      (wrapFailure ipString (inject AddCIDR (plannedEntries h q r) s).1,
        callTrace AddCIDR (plannedEntries h q r) s) := by
  simp [observe, ApplyIPSet_eq_inject, inject_record]

theorem length_eq_zero_iff (str : String) : str.length = 0 ↔ str = "" := by
  constructor
  · intro hlen
    cases str with
    | mk data =>
      have hd : data = [] := List.length_eq_zero.mp hlen
      subst hd
      rfl
  · rintro rfl
    rfl

theorem matchQuestion_iff (ru : rule) (qs : List Question) :
    matchQuestion ru qs = true ↔ ∃ qu ∈ qs, ru.accepts qu.Name = true := by
  induction qs with
  | nil => simp [matchQuestion]
  | cons qu rest ih =>
    by_cases ha : ru.accepts qu.Name = true
    · simp [matchQuestion, ha]
    · simp [matchQuestion, ha, ih]

theorem matchCNAME_iff (ru : rule) (rrs : List RR) :
    matchCNAME ru rrs = true ↔ ∃ target, RR.CNAME target ∈ rrs ∧ ru.accepts target = true := by
  induction rrs with
  | nil => simp [matchCNAME]
  | cons rr rest ih =>
    cases rr with
    | CNAME target =>
      by_cases ha : ru.accepts target = true
      · simp only [matchCNAME, ha, if_true, true_iff]
        exact ⟨target, List.mem_cons_self _ _, ha⟩
      · simp only [matchCNAME, ha, Bool.false_eq_true, if_false, ih, List.mem_cons]
        constructor
        · rintro ⟨t, ht, hacc⟩
          exact ⟨t, Or.inr ht, hacc⟩
        · rintro ⟨t, ht | ht, hacc⟩
          · injection ht with ht
            subst ht
            exact absurd hacc ha
          · exact ⟨t, ht, hacc⟩
    | A a => simp [matchCNAME, ih]
    | AAAA a => simp [matchCNAME, ih]
    | other n => simp [matchCNAME, ih]

/-- With a primitive that never fails, every entry is passed and none fails. -/
theorem callTrace_of_ok {σ : Type} (AddCIDR : Entry → σ → Option GoError × σ)
    (hok : ∀ e s, (AddCIDR e s).1 = none) (es : List Entry) (s : σ) :
    callTrace AddCIDR es s = es.map (fun e => (e, none)) ∧ (inject AddCIDR es s).1 = none := by
  induction es generalizing s with
  | nil => simp [callTrace, inject]
  | cons e es ih =>
    rcases hp : AddCIDR e s with ⟨res, s'⟩
    have hres : res = none := by
      have := hok e s
      rw [hp] at this
      exact this
    subst hres
    simp [callTrace, inject, hp, ih]

/-- The entries of the calls made are an initial segment of the entries to inject. -/
theorem callTrace_fst {σ : Type} (AddCIDR : Entry → σ → Option GoError × σ)
    (es : List Entry) (s : σ) :
    (callTrace AddCIDR es s).map Prod.fst = es.take (callTrace AddCIDR es s).length := by
  induction es generalizing s with
  | nil => simp [callTrace]
  | cons e es ih =>
    rcases hp : AddCIDR e s with ⟨res, s'⟩
    cases res with
    | none => simp [callTrace, hp, ih s']
    | some err => simp [callTrace, hp]

/-- A failed call is the last call, and its failure is the one `inject` returns. -/
theorem callTrace_failure {σ : Type} (AddCIDR : Entry → σ → Option GoError × σ)
    (es : List Entry) (s : σ) (i : Nat) (e : Entry) (err : GoError)
    (hi : (callTrace AddCIDR es s)[i]? = some (e, some err)) :
    (callTrace AddCIDR es s).length = i + 1 ∧ (inject AddCIDR es s).1 = some (e, err) := by
  induction es generalizing s i with
  | nil => simp [callTrace] at hi
  | cons e0 es ih =>
    rcases hp : AddCIDR e0 s with ⟨res, s'⟩
    cases res with
    | none =>
      simp only [callTrace, hp] at hi ⊢
      cases i with
      | zero => simp at hi
      | succ j =>
        rw [List.getElem?_cons_succ] at hi
        have := ih s' j hi
        simp [inject, hp, this]
    | some err0 =>
      simp only [callTrace, hp] at hi ⊢
      cases i with
      | zero =>
        simp at hi
        obtain ⟨he, herr⟩ := hi
        subst he herr
        simp [inject, hp]
      | succ j => simp at hi

/-- When `inject` fails, the failing call is the last one and all earlier calls
succeeded; when it succeeds, every call succeeded. -/
theorem callTrace_result {σ : Type} (AddCIDR : Entry → σ → Option GoError × σ)
    (es : List Entry) (s : σ) :
    match (inject AddCIDR es s).1 with
    | none => callTrace AddCIDR es s = es.map (fun e => (e, none))
    | some (e, err) =>
      ∃ done : List Entry, callTrace AddCIDR es s =
        done.map (fun e => (e, none)) ++ [(e, some err)] := by
  induction es generalizing s with
  | nil => simp [callTrace, inject]
  | cons e0 es ih =>
    rcases hp : AddCIDR e0 s with ⟨res, s'⟩
    cases res with
    | none =>
      have := ih s'
      simp only [callTrace, inject, hp]
      rcases hinj : (inject AddCIDR es s').1 with _ | ⟨e, err⟩
      · rw [hinj] at this
        simp [this]
      · rw [hinj] at this
        obtain ⟨done, hdone⟩ := this
        exact ⟨e0 :: done, by simp [hdone]⟩
    | some err0 =>
      simp only [callTrace, inject, hp]
      exact ⟨[], by simp⟩

/-- The selected entries do not depend on the rule list of the handler. -/
theorem ruleEntries_rules (h : Handler) (rs : List rule) (ru : rule) (q r : Msg) :
    ruleEntries { h with rules := rs } ru q r = ruleEntries h ru q r := rfl

theorem selectEntry_some (h : Handler) (ru : rule) (rr : RR) (e : Entry)
    (hsel : selectEntry h ru rr = some e) :
    e.SetName ≠ "" ∧
      ((∃ a, rr = .A a ∧ e = ⟨a, ru.setName4, h.mask4, false⟩) ∨
        (∃ a, rr = .AAAA a ∧ e = ⟨a, ru.setName6, h.mask6, true⟩)) := by
  cases rr with
  | A a =>
    by_cases hlen : ru.setName4.length = 0
    · simp [selectEntry, newEntry, hlen] at hsel
    · simp [selectEntry, newEntry, hlen] at hsel
      subst hsel
      exact ⟨fun hn => hlen ((length_eq_zero_iff _).mpr hn), Or.inl ⟨a, rfl, rfl⟩⟩
  | AAAA a =>
    by_cases hlen : ru.setName6.length = 0
    · simp [selectEntry, newEntry, hlen] at hsel
    · simp [selectEntry, newEntry, hlen] at hsel
      subst hsel
      exact ⟨fun hn => hlen ((length_eq_zero_iff _).mpr hn), Or.inr ⟨a, rfl, rfl⟩⟩
  | CNAME t => simp [selectEntry, newEntry] at hsel
  | other n => simp [selectEntry, newEntry] at hsel

theorem mem_ruleEntries (h : Handler) (ru : rule) (q r : Msg) (e : Entry)
    (he : e ∈ ruleEntries h ru q r) :
    domainMatched h ru q r = true ∧ ∃ rr ∈ r.Answer, selectEntry h ru rr = some e := by
  unfold ruleEntries at he
  by_cases hm : domainMatched h ru q r = true
  · simp only [hm, if_true, List.mem_filterMap] at he
    exact ⟨hm, he⟩
  · simp [hm] at he

/-- Every call made is for one of the entries to inject. -/
theorem mem_callTrace {σ : Type} (AddCIDR : Entry → σ → Option GoError × σ)
    (es : List Entry) (s : σ) (c : Call) (hc : c ∈ callTrace AddCIDR es s) : c.1 ∈ es := by
  have hmem : c.1 ∈ (callTrace AddCIDR es s).map Prod.fst := List.mem_map_of_mem _ hc
  rw [callTrace_fst] at hmem
  exact List.mem_of_mem_take hmem

/-- The body of the rule loop run on a journal appends the calls for the entries the
rule selects. -/
theorem applyRule_record {σ : Type} (ipString : NetIP → String)
    (AddCIDR : Entry → σ → Option GoError × σ) (h : Handler) (ru : rule) (q r : Msg)
    (log : List Call) (s : σ) :
    applyRule ipString (recordAddCIDR AddCIDR) h ru q r (log, s) =
      (wrapFailure ipString (inject AddCIDR (ruleEntries h ru q r) s).1,
        (log ++ callTrace AddCIDR (ruleEntries h ru q r) s,
          (inject AddCIDR (ruleEntries h ru q r) s).2)) := by
  simp [applyRule_eq_inject, inject_record]

/-- The value of `domainMatched` when no question name is accepted. -/
theorem domainMatched_of_no_question (h : Handler) (ru : rule) (q r : Msg)
    (hq : ∀ qu ∈ q.Question, ru.accepts qu.Name = false) :
    domainMatched h ru q r = (h.checkCAME && matchCNAME ru r.Answer) := by
  have hm : matchQuestion ru q.Question = false := by
    cases hmq : matchQuestion ru q.Question with
    | false => rfl
    | true =>
      obtain ⟨qu, hmem, hacc⟩ := (matchQuestion_iff ru q.Question).mp hmq
      rw [hq qu hmem] at hacc
      exact absurd hacc (by decide)
  cases hc : h.checkCAME <;> simp [domainMatched, hm, hc]

/-- The value of `domainMatched` when some question name is accepted. -/
theorem domainMatched_of_question (h : Handler) (ru : rule) (q r : Msg)
    (hq : ∃ qu ∈ q.Question, ru.accepts qu.Name = true) :
    domainMatched h ru q r = true := by
  have hm := (matchQuestion_iff ru q.Question).mpr hq
  simp [domainMatched, hm]

/-- Two calls that select the same entries run alike. -/
theorem ApplyIPSet_congr {σ : Type} (ipString : NetIP → String)
    (AddCIDR : Entry → σ → Option GoError × σ) (h h' : Handler) (q q' r r' : Msg) (s : σ)
    (hplan : plannedEntries h q r = plannedEntries h' q' r') :
    ApplyIPSet ipString AddCIDR h q r s = ApplyIPSet ipString AddCIDR h' q' r' s := by
  rw [ApplyIPSet_eq_inject, ApplyIPSet_eq_inject, hplan]

theorem flatMap_ruleEntries_congr (h : Handler) (q q' r : Msg) (rules : List rule)
    (hm : ∀ ru ∈ rules, domainMatched h ru q r = domainMatched h ru q' r) :
    rules.flatMap (fun ru => ruleEntries h ru q r) =
      rules.flatMap (fun ru => ruleEntries h ru q' r) := by
  induction rules with
  | nil => rfl
  | cons ru rest ih =>
    have hhead : ruleEntries h ru q r = ruleEntries h ru q' r := by
      simp [ruleEntries, hm ru (List.mem_cons_self _ _)]
    rw [List.flatMap_cons, List.flatMap_cons, hhead,
      ih (fun ru' hmem => hm ru' (List.mem_cons_of_mem _ hmem))]

theorem hasSetName_iff (spec : IPSetRuleConfig) :
    hasSetName spec = true ↔ ¬ (spec.SetName4.length = 0 ∧ spec.SetName6.length = 0) := by
  simp only [hasSetName, decide_eq_true_eq, length_eq_zero_iff]
  tauto

theorem finish_append (h : Handler) (x : rule)
    (res : Except (String × GoError) (List rule)) :
    finish { h with rules := h.rules ++ [x] } res =
      finish h (match res with
        | .ok rs => .ok (x :: rs)
        | .error e => .error e) := by
  cases res with
  | ok rs => simp [finish]
  | error e =>
    cases e
    simp [finish]

/-- The loop of `NewIPSetHandler` constructs the matchers of the specifications that
name a set, and appends the rules obtained to those of the handler. -/
theorem compileRules_eq_build {τ : Type}
    (NewDomainPolicies : String → τ → Except GoError DomainPolicies × τ)
    (specs : List IPSetRuleConfig) (h : Handler) (t : τ) :
    compileRules NewDomainPolicies specs h t =
      (finish h (buildRules NewDomainPolicies (specs.filter hasSetName) t).1,
        (buildRules NewDomainPolicies (specs.filter hasSetName) t).2) := by
  induction specs generalizing h t with
  | nil => simp [compileRules, buildRules, finish]
  | cons spec rest ih =>
    by_cases hkeep : hasSetName spec = true
    · have hcond := (hasSetName_iff spec).mp hkeep
      rw [List.filter_cons_of_pos hkeep]
      rcases hp : NewDomainPolicies spec.Domain t with ⟨res, t'⟩
      cases res with
      | error err => simp [compileRules, hcond, hp, buildRules, finish]
      | ok dps =>
        simp only [compileRules, hcond, if_false, hp, buildRules, ih, finish_append]
        rcases buildRules NewDomainPolicies (rest.filter hasSetName) t' with ⟨res', t''⟩
        cases res' <;> rfl
    · have hcond : spec.SetName4.length = 0 ∧ spec.SetName6.length = 0 := by
        by_contra hne
        exact hkeep ((hasSetName_iff spec).mpr hne)
      rw [List.filter_cons_of_neg hkeep]
      simp [compileRules, hcond, ih]

theorem buildRules_record {τ : Type}
    (NewDomainPolicies : String → τ → Except GoError DomainPolicies × τ)
    (specs : List IPSetRuleConfig) (log : List Construction) (t : τ) :
    buildRules (recordNewDomainPolicies NewDomainPolicies) specs (log, t) =
      ((buildRules NewDomainPolicies specs t).1,
        (log ++ buildTrace NewDomainPolicies specs t,
          (buildRules NewDomainPolicies specs t).2)) := by
  induction specs generalizing log t with
  | nil => simp [buildRules, buildTrace]
  | cons spec rest ih =>
    rcases hp : NewDomainPolicies spec.Domain t with ⟨res, t'⟩
    cases res with
    | error err => simp [buildRules, buildTrace, recordNewDomainPolicies, hp]
    | ok dps =>
      simp only [buildRules, buildTrace, recordNewDomainPolicies, hp, ih]
      rcases buildRules NewDomainPolicies rest t' with ⟨res', t''⟩
      cases res' <;> simp

theorem observeNew_eq {τ : Type}
    (NewDomainPolicies : String → τ → Except GoError DomainPolicies × τ)
    (c : Config) (t : τ) :
    observeNew NewDomainPolicies c t =
      (finish (initHandler c)
          (buildRules NewDomainPolicies (c.IPSet.Rule.filter hasSetName) t).1,
        buildTrace NewDomainPolicies (c.IPSet.Rule.filter hasSetName) t) := by
  simp [observeNew, NewIPSetHandler, compileRules_eq_build, buildRules_record]

theorem NewIPSetHandler_eq {τ : Type}
    (NewDomainPolicies : String → τ → Except GoError DomainPolicies × τ)
    (c : Config) (t : τ) :
    NewIPSetHandler NewDomainPolicies c t =
      (finish (initHandler c)
          (buildRules NewDomainPolicies (c.IPSet.Rule.filter hasSetName) t).1,
        (buildRules NewDomainPolicies (c.IPSet.Rule.filter hasSetName) t).2) := by
  simp [NewIPSetHandler, compileRules_eq_build]

/-- The domain lists constructed are an initial segment of those of the specifications. -/
theorem buildTrace_fst {τ : Type}
    (NewDomainPolicies : String → τ → Except GoError DomainPolicies × τ)
    (specs : List IPSetRuleConfig) (t : τ) :
    (buildTrace NewDomainPolicies specs t).map Prod.fst =
      (specs.map (fun sp => sp.Domain)).take (buildTrace NewDomainPolicies specs t).length := by
  induction specs generalizing t with
  | nil => simp [buildTrace]
  | cons spec rest ih =>
    rcases hp : NewDomainPolicies spec.Domain t with ⟨res, t'⟩
    cases res with
    | error err => simp [buildTrace, hp]
    | ok dps => simp [buildTrace, hp, ih t']

/-- What `buildRules` returns, read off the journal of constructor calls. -/
theorem buildRules_result {τ : Type}
    (NewDomainPolicies : String → τ → Except GoError DomainPolicies × τ)
    (specs : List IPSetRuleConfig) (t : τ) :
    match (buildRules NewDomainPolicies specs t).1 with
    | .ok rs =>
      rs.map (fun ru => (ru.setName4, ru.setName6)) =
          specs.map (fun sp => (sp.SetName4, sp.SetName6)) ∧
        buildTrace NewDomainPolicies specs t =
          (specs.zip rs).map (fun p => (p.1.Domain, .ok p.2.domainPolicies)) ∧
        rs.length = specs.length
    | .error (d, err) =>
      ∃ done : List Construction,
        buildTrace NewDomainPolicies specs t = done ++ [(d, .error err)] ∧
          ∀ x ∈ done, ∃ dps, x.2 = .ok dps := by
  induction specs generalizing t with
  | nil => simp [buildRules, buildTrace]
  | cons spec rest ih =>
    rcases hp : NewDomainPolicies spec.Domain t with ⟨res, t'⟩
    cases res with
    | error err =>
      simp only [buildRules, buildTrace, hp]
      exact ⟨[], by simp⟩
    | ok dps =>
      have := ih t'
      simp only [buildRules, buildTrace, hp]
      rcases hb : buildRules NewDomainPolicies rest t' with ⟨res', t''⟩
      rw [hb] at this
      cases res' with
      | ok rs =>
        simp only at this ⊢
        obtain ⟨hn, htr, hlen⟩ := this
        simp [hn, htr, hlen]
      | error x =>
        obtain ⟨d, err⟩ := x
        simp only at this ⊢
        obtain ⟨done, hdone, hall⟩ := this
        refine ⟨(spec.Domain, .ok dps) :: done, by simp [hdone], ?_⟩
        intro x hx
        rcases List.mem_cons.mp hx with rfl | hx
        · exact ⟨dps, rfl⟩
        · exact hall x hx

theorem initHandler_rules (c : Config) : (initHandler c).rules = [] := by
  by_cases h4 : c.IPSet.Mask4 = 0 <;> by_cases h6 : c.IPSet.Mask6 = 0 <;>
    simp [initHandler, h4, h6]

theorem initHandler_mask4 (c : Config) :
    (initHandler c).mask4 = if c.IPSet.Mask4 = 0 then 24 else c.IPSet.Mask4 := by
  by_cases h4 : c.IPSet.Mask4 = 0 <;> by_cases h6 : c.IPSet.Mask6 = 0 <;>
    simp [initHandler, h4, h6]

theorem initHandler_mask6 (c : Config) :
    (initHandler c).mask6 = if c.IPSet.Mask6 = 0 then 32 else c.IPSet.Mask6 := by
  by_cases h4 : c.IPSet.Mask4 = 0 <;> by_cases h6 : c.IPSet.Mask6 = 0 <;>
    simp [initHandler, h4, h6]

/-- With a constructor whose result depends on the domain list only, `buildRules`
fails exactly when the constructor fails on one of the specifications. -/
theorem buildRules_pure_error_iff (f : String → Except GoError DomainPolicies)
    (specs : List IPSetRuleConfig) :
    (∃ x, (buildRules (fun d (u : Unit) => (f d, u)) specs ()).1 = .error x) ↔
      ∃ sp ∈ specs, ∃ err, f sp.Domain = .error err := by
  induction specs with
  | nil => simp [buildRules]
  | cons spec rest ih =>
    cases hf : f spec.Domain with
    | error err =>
      simp only [buildRules, hf, List.mem_cons]
      exact ⟨fun _ => ⟨spec, Or.inl rfl, err, hf⟩, fun _ => ⟨_, rfl⟩⟩
    | ok dps =>
      simp only [buildRules, hf, List.mem_cons]
      rcases hb : buildRules (fun d (u : Unit) => (f d, u)) rest () with ⟨res', u⟩
      rw [hb] at ih
      cases res' with
      | ok rs =>
        simp only at ih ⊢
        constructor
        · rintro ⟨x, hx⟩
          cases hx
        · rintro ⟨sp, hsp | hsp, err, herr⟩
          · subst hsp
            rw [hf] at herr
            cases herr
          · obtain ⟨x, hx⟩ := ih.mpr ⟨sp, hsp, err, herr⟩
            cases hx
      | error x =>
        simp only at ih ⊢
        constructor
        · intro _
          obtain ⟨sp, hsp, herr⟩ := ih.mp ⟨x, rfl⟩
          exact ⟨sp, Or.inr hsp, herr⟩
        · intro _
          exact ⟨x, rfl⟩

/-- When `buildRules` fails, the failing specification is the first one whose
construction failed: those before it were constructed with success, those after it
were not constructed. -/
theorem buildRules_error {τ : Type}
    (NewDomainPolicies : String → τ → Except GoError DomainPolicies × τ)
    (specs : List IPSetRuleConfig) (t : τ) (d : String) (err : GoError)
    (hb : (buildRules NewDomainPolicies specs t).1 = .error (d, err)) :
    ∃ (before : List IPSetRuleConfig) (sp : IPSetRuleConfig) (after : List IPSetRuleConfig)
      (done : List Construction),
      specs = before ++ sp :: after ∧ sp.Domain = d ∧
      buildTrace NewDomainPolicies specs t = done ++ [(d, .error err)] ∧
      done.map Prod.fst = before.map (fun x => x.Domain) ∧
      ∀ x ∈ done, ∃ dps, x.2 = .ok dps := by
  induction specs generalizing t with
  | nil => simp [buildRules] at hb
  | cons spec rest ih =>
    rcases hp : NewDomainPolicies spec.Domain t with ⟨res, t'⟩
    cases res with
    | error err0 =>
      simp only [buildRules, hp, Except.error.injEq, Prod.mk.injEq] at hb
      obtain ⟨hd, he⟩ := hb
      subst hd he
      exact ⟨[], spec, rest, [], rfl, rfl, by simp [buildTrace, hp], rfl, by simp⟩
    | ok dps =>
      simp only [buildRules, hp] at hb
      rcases hrest : buildRules NewDomainPolicies rest t' with ⟨res', t''⟩
      rw [hrest] at hb
      cases res' with
      | ok rs => simp at hb
      | error x =>
        simp only [Except.error.injEq] at hb
        subst hb
        obtain ⟨before, sp, after, done, hspecs, hdom, htrace, hfst, hall⟩ :=
          ih t' (by rw [hrest])
        refine ⟨spec :: before, sp, after, (spec.Domain, .ok dps) :: done, by simp [hspecs],
          hdom, by simp [buildTrace, hp, htrace], by simp [hfst], ?_⟩
        intro x hx
        rcases List.mem_cons.mp hx with rfl | hx
        · exact ⟨dps, rfl⟩
        · exact hall x hx

/-- Every call observed is for an entry that a matched rule of the handler selects from
an answer record. -/
theorem mem_observe {σ : Type} (ipString : NetIP → String)
    (AddCIDR : Entry → σ → Option GoError × σ) (h : Handler) (q r : Msg) (s : σ) (c : Call)
    (hc : c ∈ (observe ipString AddCIDR h q r s).2) :
    ∃ ru ∈ h.rules, domainMatched h ru q r = true ∧
      ∃ rr ∈ r.Answer, selectEntry h ru rr = some c.1 := by
  rw [observe_eq] at hc
  have he := mem_callTrace AddCIDR _ s c hc
  obtain ⟨ru, hru, hmem⟩ := List.mem_flatMap.mp he
  exact ⟨ru, hru, mem_ruleEntries h ru q r c.1 hmem⟩

/-- Every call made by the body of the rule loop is for an entry that the rule, being
matched, selects from an answer record. -/
theorem mem_applyRule_record {σ : Type} (ipString : NetIP → String)
    (AddCIDR : Entry → σ → Option GoError × σ) (h : Handler) (ru : rule) (q r : Msg) (s : σ)
    (c : Call)
    (hc : c ∈ (applyRule ipString (recordAddCIDR AddCIDR) h ru q r ([], s)).2.1) :
    domainMatched h ru q r = true ∧ ∃ rr ∈ r.Answer, selectEntry h ru rr = some c.1 := by
  rw [applyRule_record] at hc
  have he := mem_callTrace AddCIDR _ s c (by simpa using hc)
  exact mem_ruleEntries h ru q r c.1 he

/-- A handler returned by `NewIPSetHandler` is the initial handler with rules added. -/
theorem NewIPSetHandler_some {τ : Type}
    (NewDomainPolicies : String → τ → Except GoError DomainPolicies × τ)
    (c : Config) (t : τ) (h : Handler)
    (hsome : (NewIPSetHandler NewDomainPolicies c t).1.1 = some h) :
    ∃ rs : List rule, h = { initHandler c with rules := rs } := by
  rw [NewIPSetHandler_eq] at hsome
  rcases hb : (buildRules NewDomainPolicies (c.IPSet.Rule.filter hasSetName) t).1 with x | rs
  · obtain ⟨d, err⟩ := x
    rw [hb] at hsome
    simp [finish] at hsome
  · rw [hb] at hsome
    simp only [finish, Option.some.injEq] at hsome
    exact ⟨(initHandler c).rules ++ rs, hsome.symm⟩

theorem flatMap_eq_nil_of_forall {α β : Type} (l : List α) (f : α → List β)
    (hf : ∀ x ∈ l, f x = []) : l.flatMap f = [] := by
  induction l with
  | nil => rfl
  | cons x rest ih =>
    rw [List.flatMap_cons, hf x (List.mem_cons_self _ _),
      ih (fun y hy => hf y (List.mem_cons_of_mem _ hy))]
    rfl

/-- An answer section without address records yields no entry. -/
theorem filterMap_selectEntry_eq_nil (h : Handler) (ru : rule) (rrs : List RR)
    (hno : ∀ rr ∈ rrs, ∀ a, rr ≠ .A a ∧ rr ≠ .AAAA a) :
    rrs.filterMap (selectEntry h ru) = [] := by
  induction rrs with
  | nil => rfl
  | cons rr rest ih =>
    have hrest := ih (fun x hx => hno x (List.mem_cons_of_mem _ hx))
    have hhead := hno rr (List.mem_cons_self _ _)
    cases rr with
    | A a => exact absurd rfl (hhead a).1
    | AAAA a => exact absurd rfl (hhead a).2
    | CNAME t => simpa [List.filterMap_cons, selectEntry, newEntry] using hrest
    | other n => simpa [List.filterMap_cons, selectEntry, newEntry] using hrest

/-- With nothing to inject, `ApplyIPSet` returns success and makes no call. -/
theorem observe_of_planned_nil {σ : Type} (ipString : NetIP → String)
    (AddCIDR : Entry → σ → Option GoError × σ) (h : Handler) (q r : Msg) (s : σ)
    (hnil : plannedEntries h q r = []) :
    observe ipString AddCIDR h q r s = (none, []) := by
  rw [observe_eq, hnil]
  rfl

/-- The value of `domainMatched`, in terms of the verdicts of the matcher. -/
theorem domainMatched_iff (h : Handler) (ru : rule) (q r : Msg) :
    domainMatched h ru q r = true ↔
      (∃ qu ∈ q.Question, ru.accepts qu.Name = true) ∨
        (h.checkCAME = true ∧ ∃ target, RR.CNAME target ∈ r.Answer ∧ ru.accepts target = true) := by
  rw [← matchQuestion_iff, ← matchCNAME_iff]
  unfold domainMatched
  cases matchQuestion ru q.Question <;> cases h.checkCAME <;> simp

/-- Calls are made as soon as there is an entry to inject. -/
theorem callTrace_ne_nil_iff {σ : Type} (AddCIDR : Entry → σ → Option GoError × σ)
    (es : List Entry) (s : σ) : callTrace AddCIDR es s ≠ [] ↔ es ≠ [] := by
  cases es with
  | nil => simp [callTrace]
  | cons e rest =>
    rcases hp : AddCIDR e s with ⟨res, s'⟩
    cases res <;> simp [callTrace, hp]

/-- A rule selects an entry from an answer section exactly when the section holds an
`A` record and the rule names an IPv4 set, or an `AAAA` record and an IPv6 set. -/
theorem filterMap_selectEntry_ne_nil_iff (h : Handler) (ru : rule) (rrs : List RR) :
    rrs.filterMap (selectEntry h ru) ≠ [] ↔
      (ru.setName4 ≠ "" ∧ ∃ a, RR.A a ∈ rrs) ∨ (ru.setName6 ≠ "" ∧ ∃ a, RR.AAAA a ∈ rrs) := by
  constructor
  · intro hne
    obtain ⟨e, he⟩ := List.exists_mem_of_ne_nil _ hne
    obtain ⟨rr, hrr, hsel⟩ := List.mem_filterMap.mp he
    obtain ⟨hname, ⟨a, hra, hea⟩ | ⟨a, hra, hea⟩⟩ := selectEntry_some h ru rr e hsel
    · rw [hea] at hname
      rw [hra] at hrr
      exact Or.inl ⟨hname, a, hrr⟩
    · rw [hea] at hname
      rw [hra] at hrr
      exact Or.inr ⟨hname, a, hrr⟩
  · rintro (⟨hname, a, ha⟩ | ⟨hname, a, ha⟩)
    · have hlen : ¬ ru.setName4.length = 0 := fun hl => hname ((length_eq_zero_iff _).mp hl)
      have hsel : selectEntry h ru (.A a) = some ⟨a, ru.setName4, h.mask4, false⟩ := by
        simp [selectEntry, newEntry, hlen]
      exact List.ne_nil_of_mem (List.mem_filterMap.mpr ⟨_, ha, hsel⟩)
    · have hlen : ¬ ru.setName6.length = 0 := fun hl => hname ((length_eq_zero_iff _).mp hl)
      have hsel : selectEntry h ru (.AAAA a) = some ⟨a, ru.setName6, h.mask6, true⟩ := by
        simp [selectEntry, newEntry, hlen]
      exact List.ne_nil_of_mem (List.mem_filterMap.mpr ⟨_, ha, hsel⟩)

/-- The entry selected depends on the set names of the rule and the masks of the
handler only. -/
theorem selectEntry_congr (h h' : Handler) (ru ru' : rule)
    (h4 : ru'.setName4 = ru.setName4) (h6 : ru'.setName6 = ru.setName6)
    (hm4 : h'.mask4 = h.mask4) (hm6 : h'.mask6 = h.mask6) :
    selectEntry h' ru' = selectEntry h ru := by
  funext rr
  cases rr <;> simp [selectEntry, newEntry, h4, h6, hm4, hm6]

@[simp] theorem isOther_A (a : NetIP) : isOther (.A a) = false := rfl

@[simp] theorem isOther_AAAA (a : NetIP) : isOther (.AAAA a) = false := rfl

@[simp] theorem isOther_CNAME (t : String) : isOther (.CNAME t) = false := rfl

@[simp] theorem isOther_other (n : Nat) : isOther (.other n) = true := rfl

/-- Records of other types do not count in the scan for an alias. -/
theorem matchCNAME_filter (ru : rule) (rrs : List RR) :
    matchCNAME ru (rrs.filter (fun rr => !isOther rr)) = matchCNAME ru rrs := by
  induction rrs with
  | nil => rfl
  | cons rr rest ih =>
    cases rr with
    | A a => simp [List.filter_cons, matchCNAME, ih]
    | AAAA a => simp [List.filter_cons, matchCNAME, ih]
    | CNAME t => simp [List.filter_cons, matchCNAME, ih]
    | other n => simp [List.filter_cons, matchCNAME, ih]

/-- Records of other types yield no entry. -/
theorem filterMap_selectEntry_filter (h : Handler) (ru : rule) (rrs : List RR) :
    (rrs.filter (fun rr => !isOther rr)).filterMap (selectEntry h ru) =
      rrs.filterMap (selectEntry h ru) := by
  induction rrs with
  | nil => rfl
  | cons rr rest ih =>
    cases rr with
    | A a => simp [List.filter_cons, List.filterMap_cons, ih]
    | AAAA a => simp [List.filter_cons, List.filterMap_cons, ih]
    | CNAME t => simp [List.filter_cons, List.filterMap_cons, ih]
    | other n => simp [List.filter_cons, List.filterMap_cons, selectEntry, newEntry, ih]

/-- The entries a rule selects depend on the answer section only, and only on its
records of type `A`, `AAAA` and `CNAME`. -/
theorem ruleEntries_congr_answer (h : Handler) (ru : rule) (q r r' : Msg)
    (hsame : r.Answer.filter (fun rr => !isOther rr) =
      r'.Answer.filter (fun rr => !isOther rr)) :
    ruleEntries h ru q r = ruleEntries h ru q r' := by
  have hc : matchCNAME ru r.Answer = matchCNAME ru r'.Answer := by
    rw [← matchCNAME_filter ru r.Answer, hsame, matchCNAME_filter]
  have hf : r.Answer.filterMap (selectEntry h ru) = r'.Answer.filterMap (selectEntry h ru) := by
    rw [← filterMap_selectEntry_filter h ru r.Answer, hsame, filterMap_selectEntry_filter]
  simp [ruleEntries, domainMatched, hc, hf]

/-- No more calls are made than there are entries to inject. -/
theorem callTrace_length_le {σ : Type} (AddCIDR : Entry → σ → Option GoError × σ)
    (es : List Entry) (s : σ) : (callTrace AddCIDR es s).length ≤ es.length := by
  have hlen := congrArg List.length (callTrace_fst AddCIDR es s)
  rw [List.length_map] at hlen
  rw [hlen, List.length_take]
  exact Nat.min_le_right _ _

/-- A rule selects at most one entry per address record. -/
theorem length_filterMap_selectEntry_le (h : Handler) (ru : rule) (rrs : List RR) :
    (rrs.filterMap (selectEntry h ru)).length ≤ (rrs.filter isAddress).length := by
  induction rrs with
  | nil => simp
  | cons rr rest ih =>
    cases hsel : selectEntry h ru rr with
    | none =>
      rw [List.filterMap_cons_none hsel]
      exact le_trans ih (List.Sublist.length_le
        (List.Sublist.filter _ (List.sublist_cons_self rr rest)))
    | some e =>
      have haddr : isAddress rr = true := by
        rcases (selectEntry_some h ru rr e hsel).2 with ⟨a, hra, -⟩ | ⟨a, hra, -⟩ <;>
          rw [hra] <;> rfl
      rw [List.filterMap_cons_some hsel, List.filter_cons_of_pos haddr]
      simpa using ih

theorem ruleEntries_length_le (h : Handler) (ru : rule) (q r : Msg) :
    (ruleEntries h ru q r).length ≤ (r.Answer.filter isAddress).length := by
  unfold ruleEntries
  split_ifs
  · exact length_filterMap_selectEntry_le h ru r.Answer
  · simp

theorem flatMap_length_le {α β : Type} (l : List α) (f : α → List β) (k : Nat)
    (hf : ∀ x ∈ l, (f x).length ≤ k) : (l.flatMap f).length ≤ l.length * k := by
  induction l with
  | nil => simp
  | cons x rest ih =>
    rw [List.flatMap_cons, List.length_append, List.length_cons, Nat.succ_mul]
    have h1 := hf x (List.mem_cons_self _ _)
    have h2 := ih (fun y hy => hf y (List.mem_cons_of_mem _ hy))
    omega

/-- The question loop, as a search through the question names. -/
theorem matchQuestion_eq_any (ru : rule) (qs : List Question) :
    matchQuestion ru qs = qs.any (fun qu => ru.accepts qu.Name) := by
  induction qs with
  | nil => rfl
  | cons qu rest ih =>
    cases ha : ru.accepts qu.Name <;> simp [matchQuestion, ha, ih]

/-- The alias loop, as a search through the `CNAME` records. -/
theorem matchCNAME_eq_any (ru : rule) (rrs : List RR) :
    matchCNAME ru rrs =
      rrs.any (fun rr =>
        match rr with
        | .CNAME target => ru.accepts target
        | _ => false) := by
  induction rrs with
  | nil => rfl
  | cons rr rest ih =>
    cases rr with
    | CNAME target => cases ha : ru.accepts target <;> simp [matchCNAME, ha, ih]
    | A a => simp [matchCNAME, ih]
    | AAAA a => simp [matchCNAME, ih]
    | other n => simp [matchCNAME, ih]

/-- The flag `domainMatched`, on the verdicts of the matcher. -/
theorem domainMatched_eq_any (h : Handler) (ru : rule) (q r : Msg) :
    domainMatched h ru q r =
      (q.Question.any (fun qu => ru.accepts qu.Name) ||
        (h.checkCAME && r.Answer.any (fun rr =>
          match rr with
          | .CNAME target => ru.accepts target
          | _ => false))) := by
  rw [← matchQuestion_eq_any, ← matchCNAME_eq_any]
  unfold domainMatched
  cases matchQuestion ru q.Question <;> cases h.checkCAME <;> simp

/-- The entry selected for an answer record, record type by record type. -/
theorem selectEntry_eq (h : Handler) (ru : rule) :
    selectEntry h ru = fun rr =>
      match rr with
      | .A a =>
        if ru.setName4 = "" then none
        else some ({ IP := a, SetName := ru.setName4, Mask := h.mask4, IsNET6 := false } : Entry)
      | .AAAA a =>
        if ru.setName6 = "" then none
        else some { IP := a, SetName := ru.setName6, Mask := h.mask6, IsNET6 := true }
      | _ => none := by
  funext rr
  cases rr <;> simp [selectEntry, newEntry, length_eq_zero_iff]

/-- A matcher that accepts no name in the sense of line 81 makes `accepts` false. -/
theorem accepts_eq_false_of (ru : rule) (name : String)
    (hno : ∀ action, ru.domainPolicies.Match name = some action →
      action.Mode ≠ ActionMode.PolicyActionAccept) :
    ru.accepts name = false := by
  unfold rule.accepts
  cases hm : ru.domainPolicies.Match name with
  | none => rfl
  | some action => simpa using hno action hm

/-! ## The claims -/

/-- C1: for a handler holding a single rule whose two set names are both non-empty, a
query one of whose question names the rule's matcher accepts, any response, and a
primitive that always succeeds, `ApplyIPSet` returns success and the calls of the
primitive are exactly the `A` and `AAAA` answer records in answer order, an `A` record
giving `(address, mask4, IPv4, set4)` and an `AAAA` record `(address, mask6, IPv6, set6)`. -/
theorem ApplyIPSet_single_rule_calls {σ : Type} (ipString : NetIP → String)
    (AddCIDR : Entry → σ → Option GoError × σ) (h : Handler) (ru : rule) (q r : Msg) (s : σ)
    (hrules : h.rules = [ru]) (h4 : ru.setName4 ≠ "") (h6 : ru.setName6 ≠ "")
    (hq : ∃ qu ∈ q.Question, ru.accepts qu.Name = true)
    (hok : ∀ e s, (AddCIDR e s).1 = none) :
    observe ipString AddCIDR h q r s =
      (none,
        (r.Answer.filterMap (fun rr =>
            match rr with
            | .A a => some ({ IP := a, SetName := ru.setName4, Mask := h.mask4,
                              IsNET6 := false } : Entry)
            | .AAAA a => some { IP := a, SetName := ru.setName6, Mask := h.mask6,
                                IsNET6 := true }
            | _ => none)).map (fun e => (e, none))) := by
  have hm : domainMatched h ru q r = true := by
    have := (matchQuestion_iff ru q.Question).mpr hq
    simp [domainMatched, this]
  have h4len : ¬ ru.setName4.length = 0 := fun hl => h4 ((length_eq_zero_iff _).mp hl)
  have h6len : ¬ ru.setName6.length = 0 := fun hl => h6 ((length_eq_zero_iff _).mp hl)
  have hsel : selectEntry h ru = (fun rr =>
      match rr with
      | .A a => some ({ IP := a, SetName := ru.setName4, Mask := h.mask4,
                        IsNET6 := false } : Entry)
      | .AAAA a => some { IP := a, SetName := ru.setName6, Mask := h.mask6, IsNET6 := true }
      | _ => none) := by
    funext rr
    cases rr <;> simp [selectEntry, newEntry, h4len, h6len]
  have hplan : plannedEntries h q r = r.Answer.filterMap (selectEntry h ru) := by
    simp [plannedEntries, hrules, ruleEntries, hm]
  have htr := callTrace_of_ok AddCIDR hok (plannedEntries h q r) s
  rw [observe_eq, htr.1, htr.2, hplan, hsel]
  rfl

/-- C1, at the input of the spec: masks `0/0` compile to `24/32`, and the query
`example.com.` with the answers `A 1.2.3.4`, `AAAA ::1` gives the two calls
`(1.2.3.4, 24, IPv4, "cn4")` and `(::1, 32, IPv6, "cn6")`. -/
theorem ApplyIPSet_single_rule_calls_witness :
    (NewIPSetHandler sampleNewDomainPolicies exampleConfig ()).1.1.map
        (fun h => (h.checkCAME, h.mask4, h.mask6,
          h.rules.map (fun ru => (ru.setName4, ru.setName6)))) =
      some (false, 24, 32, [("cn4", "cn6")]) ∧
    observe sampleIPString okAddCIDR exampleHandler exampleQuery exampleResponse () =
      (none, [(⟨[1, 2, 3, 4], "cn4", 24, false⟩, none),
              (⟨[0, 0, 0, 0, 0, 0, 0, 0, 0, 0, 0, 0, 0, 0, 0, 1], "cn6", 32, true⟩, none)]) :=
  ⟨by decide,
    (ApplyIPSet_single_rule_calls sampleIPString okAddCIDR exampleHandler exampleRule
      exampleQuery exampleResponse () rfl (by decide) (by decide)
      ⟨⟨"example.com.", 1, 1⟩, List.mem_cons_self _ _, by decide⟩ (fun _ _ => rfl)).trans
      (by decide)⟩

/-- C2: if the k-th call of the primitive (k at least 1) fails during an `ApplyIPSet`
call, the call returns an error, exactly k calls are made, and their entries are the
first k entries of the calls the same `ApplyIPSet` call makes with any primitive that
always succeeds; so nothing is attempted after the failure, in this rule or a later one. -/
theorem ApplyIPSet_fail_fast {σ σ' : Type} (ipString : NetIP → String)
    (AddCIDR : Entry → σ → Option GoError × σ) (h : Handler) (q r : Msg) (s : σ)
    (k : Nat) (e : Entry) (err : GoError) (hk : 1 ≤ k)
    (hfail : (observe ipString AddCIDR h q r s).2[k - 1]? = some (e, some err))
    (okCIDR : Entry → σ' → Option GoError × σ') (s' : σ')
    (hok : ∀ e s, (okCIDR e s).1 = none) :
    (observe ipString AddCIDR h q r s).1 ≠ none ∧
    (observe ipString AddCIDR h q r s).2.length = k ∧
    (observe ipString AddCIDR h q r s).2.map Prod.fst =
      ((observe ipString okCIDR h q r s').2.map Prod.fst).take k := by
  rw [observe_eq] at hfail ⊢
  rw [observe_eq]
  simp only at hfail ⊢
  obtain ⟨hlen, hres⟩ := callTrace_failure AddCIDR (plannedEntries h q r) s (k - 1) e err hfail
  have hk' : k - 1 + 1 = k := Nat.sub_add_cancel hk
  rw [hk'] at hlen
  refine ⟨?_, hlen, ?_⟩
  · rw [hres]
    simp [wrapFailure]
  · rw [callTrace_fst, hlen, (callTrace_of_ok okCIDR hok (plannedEntries h q r) s').1]
    simp [List.map_map, Function.comp_def]

/-- C2, at the input of the spec: three matching `A` records and a primitive failing on
its second call give an error and exactly two calls, those of the first two records. -/
theorem ApplyIPSet_fail_fast_witness :
    (observe sampleIPString failOnSecond exampleHandler exampleQuery threeAResponse 0).2 =
      [(⟨[1, 2, 3, 4], "cn4", 24, false⟩, none),
       (⟨[5, 6, 7, 8], "cn4", 24, false⟩, some (.errorString "no such set"))] ∧
    (observe sampleIPString okAddCIDR exampleHandler exampleQuery threeAResponse ()).2.map
        Prod.fst =
      [⟨[1, 2, 3, 4], "cn4", 24, false⟩, ⟨[5, 6, 7, 8], "cn4", 24, false⟩,
       ⟨[9, 9, 9, 9], "cn4", 24, false⟩] ∧
    (observe sampleIPString failOnSecond exampleHandler exampleQuery threeAResponse 0).1 ≠ none ∧
    (observe sampleIPString failOnSecond exampleHandler exampleQuery threeAResponse 0).2.length
      = 2 ∧
    (observe sampleIPString failOnSecond exampleHandler exampleQuery threeAResponse 0).2.map
        Prod.fst =
      ((observe sampleIPString okAddCIDR exampleHandler exampleQuery threeAResponse ()).2.map
        Prod.fst).take 2 :=
  ⟨by decide, by decide,
    ApplyIPSet_fail_fast sampleIPString failOnSecond exampleHandler exampleQuery threeAResponse
      0 2 ⟨[5, 6, 7, 8], "cn4", 24, false⟩ (.errorString "no such set") (by decide)
      (by decide) okAddCIDR () (fun _ _ => rfl)⟩

/-- C3: in a handler with `checkCNAME = false`, a rule none of whose question names is
accepted makes no call of the primitive, whatever the response holds: the body of the
rule loop leaves journal and state as they are and returns no error, and the whole call
behaves as if the rule were not in the handler. -/
theorem ApplyIPSet_no_question_match {σ : Type} (ipString : NetIP → String)
    (AddCIDR : Entry → σ → Option GoError × σ) (h : Handler) (ru : rule)
    (before after : List rule) (q r : Msg) (log : List Call) (s : σ)
    (hc : h.checkCAME = false) (hrules : h.rules = before ++ ru :: after)
    (hq : ∀ qu ∈ q.Question, ru.accepts qu.Name = false) :
    applyRule ipString (recordAddCIDR AddCIDR) h ru q r (log, s) = (none, (log, s)) ∧
    ApplyIPSet ipString (recordAddCIDR AddCIDR) h q r (log, s) =
      ApplyIPSet ipString (recordAddCIDR AddCIDR) { h with rules := before ++ after } q r
        (log, s) := by
  have hm : domainMatched h ru q r = false := by
    rw [domainMatched_of_no_question h ru q r hq, hc]
    rfl
  have hnone : ruleEntries h ru q r = [] := by simp [ruleEntries, hm]
  constructor
  · simp [applyRule, hm]
  · have hplan : plannedEntries h q r =
        plannedEntries { h with rules := before ++ after } q r := by
      simp [plannedEntries, hrules, List.flatMap_append, List.flatMap_cons, hnone,
        ruleEntries_rules]
    rw [ApplyIPSet_eq_inject, ApplyIPSet_eq_inject, hplan]

/-- C3, at the input of the spec: `checkCNAME = false`, the question `other.test.` is
not accepted, the alias `example.com.` would be: no call is made. -/
theorem ApplyIPSet_no_question_match_witness :
    (∃ target, RR.CNAME target ∈ cnameResponse.Answer ∧ exampleRule.accepts target = true) ∧
    applyRule sampleIPString (recordAddCIDR okAddCIDR) plainHandler exampleRule otherQuery
        cnameResponse ([], ()) = (none, ([], ())) ∧
    ApplyIPSet sampleIPString (recordAddCIDR okAddCIDR) plainHandler otherQuery cnameResponse
        ([], ()) =
      ApplyIPSet sampleIPString (recordAddCIDR okAddCIDR)
        { plainHandler with rules := [] ++ [] } otherQuery cnameResponse ([], ()) :=
  ⟨⟨"example.com.", List.mem_cons_self _ _, by decide⟩,
    ApplyIPSet_no_question_match sampleIPString okAddCIDR plainHandler exampleRule [] []
      otherQuery cnameResponse [] () rfl rfl (by decide)⟩

/-- C4 as stated fails on a handler with a second rule. With `checkCNAME = true`, no
rule accepts the question `other.test.`, the first rule accepts the alias
`cdn.example.net.` of the response and the question `example.com.`; yet the call for
`other.test.` makes one call of the primitive and the call for `example.com.` two,
because the second rule accepts `example.com.` and not the alias. -/
theorem ApplyIPSet_cname_counterexample :
    overlapHandler.checkCAME = true ∧
    overlapHandler.rules = [wideRule, overlapRule] ∧
    (∀ ru ∈ [wideRule, overlapRule], ∀ qu ∈ otherQuery.Question, ru.accepts qu.Name = false) ∧
    (∃ target, RR.CNAME target ∈ cdnResponse.Answer ∧ wideRule.accepts target = true) ∧
    (∃ qu ∈ exampleQuery.Question, wideRule.accepts qu.Name = true) ∧
    observe sampleIPString okAddCIDR overlapHandler otherQuery cdnResponse () =
      (none, [(⟨[1, 2, 3, 4], "cn4", 24, false⟩, none)]) ∧
    observe sampleIPString okAddCIDR overlapHandler exampleQuery cdnResponse () =
      (none, [(⟨[1, 2, 3, 4], "cn4", 24, false⟩, none),
              (⟨[1, 2, 3, 4], "alt4", 24, false⟩, none)]) ∧
    observe sampleIPString okAddCIDR overlapHandler otherQuery cdnResponse () ≠
      observe sampleIPString okAddCIDR overlapHandler exampleQuery cdnResponse () :=
  ⟨rfl, rfl,
    by
      intro ru hru
      have hcases : ru = wideRule ∨ ru = overlapRule := by simpa using hru
      rcases hcases with rfl | rfl <;> decide,
    ⟨"cdn.example.net.", List.mem_cons_self _ _, by decide⟩,
    ⟨⟨"example.com.", 1, 1⟩, List.mem_cons_self _ _, by decide⟩, by decide, by decide,
    by decide⟩

/-- C4, amended: in a handler with `checkCNAME = true`, say that a rule is in the
situation of the claim when it accepts no question name of `q`, accepts the target of a
`CNAME` record of the answer section of `r`, and accepts a question name of `q'`. For
such a rule the body of the rule loop does the same for `q` and for `q'`: same result,
same calls, same state. And when every rule of the handler is in that situation or
gives `q` and `q'` the same verdict on their question names, `ApplyIPSet(q, r)` and
`ApplyIPSet(q', r)` return the same result, make the same calls and leave the same
state, whatever the primitive does. -/
theorem ApplyIPSet_cname_as_question {σ : Type} (ipString : NetIP → String)
    (AddCIDR : Entry → σ → Option GoError × σ) (h : Handler) (q q' r : Msg)
    (hc : h.checkCAME = true) :
    (∀ ru : rule,
      (∀ qu ∈ q.Question, ru.accepts qu.Name = false) →
      (∃ target, RR.CNAME target ∈ r.Answer ∧ ru.accepts target = true) →
      (∃ qu ∈ q'.Question, ru.accepts qu.Name = true) →
      ∀ st : List Call × σ,
        applyRule ipString (recordAddCIDR AddCIDR) h ru q r st =
          applyRule ipString (recordAddCIDR AddCIDR) h ru q' r st) ∧
    ((∀ ru ∈ h.rules,
        ((∀ qu ∈ q.Question, ru.accepts qu.Name = false) ∧
          (∃ target, RR.CNAME target ∈ r.Answer ∧ ru.accepts target = true) ∧
          (∃ qu ∈ q'.Question, ru.accepts qu.Name = true)) ∨
        matchQuestion ru q.Question = matchQuestion ru q'.Question) →
      ∀ s : σ,
        ApplyIPSet ipString AddCIDR h q r s = ApplyIPSet ipString AddCIDR h q' r s ∧
        observe ipString AddCIDR h q r s = observe ipString AddCIDR h q' r s) := by
  have hsit : ∀ ru : rule,
      (∀ qu ∈ q.Question, ru.accepts qu.Name = false) →
      (∃ target, RR.CNAME target ∈ r.Answer ∧ ru.accepts target = true) →
      (∃ qu ∈ q'.Question, ru.accepts qu.Name = true) →
      domainMatched h ru q r = domainMatched h ru q' r := by
    intro ru hno hcname hyes
    rw [domainMatched_of_no_question h ru q r hno, domainMatched_of_question h ru q' r hyes,
      hc, (matchCNAME_iff ru r.Answer).mpr hcname]
    rfl
  constructor
  · intro ru hno hcname hyes st
    simp [applyRule, hsit ru hno hcname hyes]
  · intro hrules s
    have hm : ∀ ru ∈ h.rules, domainMatched h ru q r = domainMatched h ru q' r := by
      intro ru hru
      rcases hrules ru hru with ⟨hno, hcname, hyes⟩ | hsame
      · exact hsit ru hno hcname hyes
      · simp [domainMatched, hsame]
    have hplan : plannedEntries h q r = plannedEntries h q' r :=
      flatMap_ruleEntries_congr h q q' r h.rules hm
    exact ⟨ApplyIPSet_congr ipString AddCIDR h h q q' r r s hplan, by
      rw [observe_eq, observe_eq, hplan]⟩

/-- C4, amended, at an input: the first rule is matched through the alias
`example.com.` for the query `other.test.` and through the question for the query
`example.com.`; the second rule accepts neither question. -/
theorem ApplyIPSet_cname_as_question_witness :
    observe sampleIPString okAddCIDR cnameHandler otherQuery cnameResponse () =
      (none, [(⟨[1, 2, 3, 4], "cn4", 24, false⟩, none)]) ∧
    applyRule sampleIPString (recordAddCIDR okAddCIDR) cnameHandler exampleRule otherQuery
        cnameResponse ([], ()) =
      applyRule sampleIPString (recordAddCIDR okAddCIDR) cnameHandler exampleRule exampleQuery
        cnameResponse ([], ()) ∧
    ApplyIPSet sampleIPString okAddCIDR cnameHandler otherQuery cnameResponse () =
      ApplyIPSet sampleIPString okAddCIDR cnameHandler exampleQuery cnameResponse () ∧
    observe sampleIPString okAddCIDR cnameHandler otherQuery cnameResponse () =
      observe sampleIPString okAddCIDR cnameHandler exampleQuery cnameResponse () :=
  ⟨by decide,
    (ApplyIPSet_cname_as_question sampleIPString okAddCIDR cnameHandler otherQuery exampleQuery
      cnameResponse rfl).1 exampleRule (by decide)
      ⟨"example.com.", List.mem_cons_self _ _, by decide⟩
      ⟨⟨"example.com.", 1, 1⟩, List.mem_cons_self _ _, by decide⟩ ([], ()),
    (ApplyIPSet_cname_as_question sampleIPString okAddCIDR cnameHandler otherQuery exampleQuery
      cnameResponse rfl).2 (by
        intro ru hru
        have hcases : ru = exampleRule ∨ ru = aliasRule := by
          simpa [cnameHandler] using hru
        rcases hcases with rfl | rfl
        · exact Or.inl ⟨by decide, ⟨"example.com.", List.mem_cons_self _ _, by decide⟩,
            ⟨⟨"example.com.", 1, 1⟩, List.mem_cons_self _ _, by decide⟩⟩
        · exact Or.inr (by decide)) ()⟩

/-- C5: no call of the primitive carries an empty set name; and for a rule whose
`setName4` is empty every call made by the body of the rule loop has `IsNET6 = true`
(no `A` record is injected), while for a rule whose `setName6` is empty every such
call has `IsNET6 = false` (no `AAAA` record is injected). -/
theorem AddCIDR_set_name_nonempty {σ : Type} (ipString : NetIP → String)
    (AddCIDR : Entry → σ → Option GoError × σ) (h : Handler) (q r : Msg) (s : σ) :
    (∀ c ∈ (observe ipString AddCIDR h q r s).2, c.1.SetName ≠ "") ∧
    (∀ ru : rule, ru.setName4 = "" →
      ∀ c ∈ (applyRule ipString (recordAddCIDR AddCIDR) h ru q r ([], s)).2.1,
        c.1.IsNET6 = true) ∧
    (∀ ru : rule, ru.setName6 = "" →
      ∀ c ∈ (applyRule ipString (recordAddCIDR AddCIDR) h ru q r ([], s)).2.1,
        c.1.IsNET6 = false) := by
  refine ⟨?_, ?_, ?_⟩
  · intro c hcmem
    rw [observe_eq] at hcmem
    have he := mem_callTrace AddCIDR _ s c hcmem
    obtain ⟨ru, -, hru⟩ := List.mem_flatMap.mp he
    obtain ⟨-, rr, -, hsel⟩ := mem_ruleEntries h ru q r c.1 hru
    exact (selectEntry_some h ru rr c.1 hsel).1
  · intro ru h4 c hcmem
    rw [applyRule_record] at hcmem
    have he := mem_callTrace AddCIDR _ s c (by simpa using hcmem)
    obtain ⟨-, rr, -, hsel⟩ := mem_ruleEntries h ru q r c.1 he
    obtain ⟨hne, ⟨a, -, hea⟩ | ⟨a, -, hea⟩⟩ := selectEntry_some h ru rr c.1 hsel
    · rw [hea] at hne
      exact absurd h4 hne
    · rw [hea]
  · intro ru h6 c hcmem
    rw [applyRule_record] at hcmem
    have he := mem_callTrace AddCIDR _ s c (by simpa using hcmem)
    obtain ⟨-, rr, -, hsel⟩ := mem_ruleEntries h ru q r c.1 he
    obtain ⟨hne, ⟨a, -, hea⟩ | ⟨a, -, hea⟩⟩ := selectEntry_some h ru rr c.1 hsel
    · rw [hea]
    · rw [hea] at hne
      exact absurd h6 hne

/-- C5, at an input: the rule `example.com. -> cn6` has no IPv4 set; on the matching
response `A 1.2.3.4`, `AAAA ::1` its only call is the one for `::1`. -/
theorem AddCIDR_set_name_nonempty_witness :
    (applyRule sampleIPString (recordAddCIDR okAddCIDR) exampleHandler v6OnlyRule exampleQuery
        exampleResponse ([], ())).2.1 =
      [(⟨[0, 0, 0, 0, 0, 0, 0, 0, 0, 0, 0, 0, 0, 0, 0, 1], "cn6", 32, true⟩, none)] ∧
    ∀ c ∈ (applyRule sampleIPString (recordAddCIDR okAddCIDR) exampleHandler v6OnlyRule
        exampleQuery exampleResponse ([], ())).2.1, c.1.IsNET6 = true :=
  ⟨by decide,
    (AddCIDR_set_name_nonempty sampleIPString okAddCIDR exampleHandler exampleQuery
      exampleResponse ()).2.1 v6OnlyRule rfl⟩

/-- C6: when every matcher construction made by `NewIPSetHandler` succeeds, it returns a
handler and no error; the rules of the handler are the specifications that name at
least one set, in declaration order, with both set names copied and with the matcher
constructed for their domain list; so their number is the number of such
specifications, and every rule has a non-empty `setName4` or `setName6`. -/
theorem NewIPSetHandler_rules {τ : Type}
    (NewDomainPolicies : String → τ → Except GoError DomainPolicies × τ)
    (c : Config) (t : τ)
    (hok : ∀ x ∈ (observeNew NewDomainPolicies c t).2, ∃ dps, x.2 = .ok dps) :
    ∃ h : Handler,
      (observeNew NewDomainPolicies c t).1 = (some h, none) ∧
      (NewIPSetHandler NewDomainPolicies c t).1 = (some h, none) ∧
      h.rules.map (fun ru => (ru.setName4, ru.setName6)) =
        (c.IPSet.Rule.filter hasSetName).map (fun sp => (sp.SetName4, sp.SetName6)) ∧
      (observeNew NewDomainPolicies c t).2 =
        ((c.IPSet.Rule.filter hasSetName).zip h.rules).map
          (fun p => (p.1.Domain, .ok p.2.domainPolicies)) ∧
      h.rules.length = (c.IPSet.Rule.filter hasSetName).length ∧
      ∀ ru ∈ h.rules, ru.setName4 ≠ "" ∨ ru.setName6 ≠ "" := by
  rw [observeNew_eq] at hok ⊢
  rw [NewIPSetHandler_eq]
  have hres := buildRules_result NewDomainPolicies (c.IPSet.Rule.filter hasSetName) t
  rcases hb : (buildRules NewDomainPolicies (c.IPSet.Rule.filter hasSetName) t).1 with x | rs
  · obtain ⟨d, err⟩ := x
    rw [hb] at hres
    obtain ⟨done, hdone, -⟩ := hres
    obtain ⟨dps, hdps⟩ := hok (d, .error err) (by simp [hdone])
    cases hdps
  · rw [hb] at hres
    obtain ⟨hnames, htrace, hlen⟩ := hres
    refine ⟨{ initHandler c with rules := (initHandler c).rules ++ rs }, rfl, rfl, ?_, ?_, ?_, ?_⟩
    · simpa [initHandler_rules] using hnames
    · simpa [initHandler_rules] using htrace
    · simpa [initHandler_rules] using hlen
    · intro ru hru
      have hru' : ru ∈ rs := by simpa [initHandler_rules] using hru
      have hmem : (ru.setName4, ru.setName6) ∈
          rs.map (fun ru => (ru.setName4, ru.setName6)) :=
        List.mem_map_of_mem (fun ru => (ru.setName4, ru.setName6)) hru'
      rw [hnames] at hmem
      obtain ⟨sp, hsp, heq⟩ := List.mem_map.mp hmem
      have hkeep : hasSetName sp = true := (List.mem_filter.mp hsp).2
      simp only [Prod.mk.injEq] at heq
      rw [← heq.1, ← heq.2]
      simpa [hasSetName] using hkeep

/-- C6, at an input: three specifications, the second naming no set, compile to the
two rules of the first and the third; two matchers are constructed. -/
theorem NewIPSetHandler_rules_witness :
    (observeNew sampleNewDomainPolicies threeSpecConfig ()).2.map Prod.fst =
      ["example.com.", "alias.test."] ∧
    ∃ h : Handler,
      (observeNew sampleNewDomainPolicies threeSpecConfig ()).1 = (some h, none) ∧
      (NewIPSetHandler sampleNewDomainPolicies threeSpecConfig ()).1 = (some h, none) ∧
      h.rules.map (fun ru => (ru.setName4, ru.setName6)) =
        (threeSpecConfig.IPSet.Rule.filter hasSetName).map
          (fun sp => (sp.SetName4, sp.SetName6)) ∧
      (observeNew sampleNewDomainPolicies threeSpecConfig ()).2 =
        ((threeSpecConfig.IPSet.Rule.filter hasSetName).zip h.rules).map
          (fun p => (p.1.Domain, .ok p.2.domainPolicies)) ∧
      h.rules.length = (threeSpecConfig.IPSet.Rule.filter hasSetName).length ∧
      ∀ ru ∈ h.rules, ru.setName4 ≠ "" ∨ ru.setName6 ≠ "" :=
  ⟨by decide,
    NewIPSetHandler_rules sampleNewDomainPolicies threeSpecConfig () (by
      intro x hx
      have hcases : x = ("example.com.", .ok (acceptOnly "example.com.")) ∨
          x = ("alias.test.", .ok (acceptOnly "alias.test.")) := by
        have hlist : (observeNew sampleNewDomainPolicies threeSpecConfig ()).2 =
            [("example.com.", .ok (acceptOnly "example.com.")),
             ("alias.test.", .ok (acceptOnly "alias.test."))] := by rfl
        rw [hlist] at hx
        simpa using hx
      rcases hcases with rfl | rfl
      · exact ⟨_, rfl⟩
      · exact ⟨_, rfl⟩)⟩

/-- C7: on a configuration for which `NewIPSetHandler` returns a handler, the mask of
the handler for IPv4 is 24 when the configured `Mask4` is 0 and the configured value
otherwise, and its mask for IPv6 is 32 when the configured `Mask6` is 0 and the
configured value otherwise; each depends on its own configured value only. -/
theorem NewIPSetHandler_masks {τ : Type}
    (NewDomainPolicies : String → τ → Except GoError DomainPolicies × τ)
    (c : Config) (t : τ) (h : Handler)
    (hsome : (NewIPSetHandler NewDomainPolicies c t).1.1 = some h) :
    h.mask4 = (if c.IPSet.Mask4 = 0 then 24 else c.IPSet.Mask4) ∧
    h.mask6 = (if c.IPSet.Mask6 = 0 then 32 else c.IPSet.Mask6) := by
  rw [NewIPSetHandler_eq] at hsome
  rcases hb : (buildRules NewDomainPolicies (c.IPSet.Rule.filter hasSetName) t).1 with x | rs
  · obtain ⟨d, err⟩ := x
    rw [hb] at hsome
    simp [finish] at hsome
  · rw [hb] at hsome
    simp only [finish, Option.some.injEq] at hsome
    subst hsome
    exact ⟨initHandler_mask4 c, initHandler_mask6 c⟩

/-- C7, at an input: `Mask4 = 0` and `Mask6 = 64` give the masks 24 and 64. -/
theorem NewIPSetHandler_masks_witness :
    (NewIPSetHandler sampleNewDomainPolicies threeSpecConfig ()).1.1.map
        (fun h => (h.mask4, h.mask6)) = some (24, 64) ∧
    ∀ h : Handler, (NewIPSetHandler sampleNewDomainPolicies threeSpecConfig ()).1.1 = some h →
      h.mask4 = (if threeSpecConfig.IPSet.Mask4 = 0 then 24 else threeSpecConfig.IPSet.Mask4) ∧
      h.mask6 = (if threeSpecConfig.IPSet.Mask6 = 0 then 32 else threeSpecConfig.IPSet.Mask6) :=
  ⟨by decide, fun h hsome =>
    NewIPSetHandler_masks sampleNewDomainPolicies threeSpecConfig () h hsome⟩

/-- C8: `NewIPSetHandler` returns an error exactly when one of the matcher constructions
it made failed; with an error it returns no handler; the constructions made are, in
order, for an initial segment of the specifications that name a set, so a specification
with both set names empty is never constructed; and for a constructor whose result
depends on the domain list only, an error is returned exactly when the constructor fails
on some specification with a non-empty set name. -/
theorem NewIPSetHandler_error_iff {τ : Type}
    (NewDomainPolicies : String → τ → Except GoError DomainPolicies × τ)
    (c : Config) (t : τ) :
    ((observeNew NewDomainPolicies c t).1.2 ≠ none ↔
      ∃ x ∈ (observeNew NewDomainPolicies c t).2, ∃ err, x.2 = .error err) ∧
    ((observeNew NewDomainPolicies c t).1.2 ≠ none →
      (observeNew NewDomainPolicies c t).1.1 = none) ∧
    (observeNew NewDomainPolicies c t).2.map Prod.fst <+:
      (c.IPSet.Rule.filter hasSetName).map (fun sp => sp.Domain) ∧
    (NewIPSetHandler NewDomainPolicies c t).1 = (observeNew NewDomainPolicies c t).1 ∧
    ∀ f : String → Except GoError DomainPolicies,
      (NewIPSetHandler (fun d (u : Unit) => (f d, u)) c ()).1.2 ≠ none ↔
        ∃ sp ∈ c.IPSet.Rule, (sp.SetName4 ≠ "" ∨ sp.SetName6 ≠ "") ∧
          ∃ err, f sp.Domain = .error err := by
  refine ⟨?_, ?_, ?_, ?_, ?_⟩
  · rw [observeNew_eq]
    have hres := buildRules_result NewDomainPolicies (c.IPSet.Rule.filter hasSetName) t
    rcases hb : (buildRules NewDomainPolicies (c.IPSet.Rule.filter hasSetName) t).1 with x | rs
    · obtain ⟨d, err⟩ := x
      rw [hb] at hres
      obtain ⟨done, hdone, -⟩ := hres
      simp only [finish, ne_eq, reduceCtorEq, not_false_eq_true, true_iff]
      exact ⟨(d, .error err), by simp [hdone], err, rfl⟩
    · rw [hb] at hres
      obtain ⟨-, htrace, -⟩ := hres
      simp only [finish, ne_eq, not_true_eq_false, false_iff]
      rintro ⟨x, hx, err, herr⟩
      rw [htrace] at hx
      obtain ⟨p, -, hp⟩ := List.mem_map.mp hx
      rw [← hp] at herr
      cases herr
  · rw [observeNew_eq]
    rcases (buildRules NewDomainPolicies (c.IPSet.Rule.filter hasSetName) t).1 with x | rs
    · obtain ⟨d, err⟩ := x
      simp [finish]
    · simp [finish]
  · rw [observeNew_eq, buildTrace_fst]
    exact List.take_prefix _ _
  · rw [observeNew_eq, NewIPSetHandler_eq]
  · intro f
    rw [NewIPSetHandler_eq]
    have hpure := buildRules_pure_error_iff f (c.IPSet.Rule.filter hasSetName)
    have hmem : (∃ sp ∈ c.IPSet.Rule.filter hasSetName, ∃ err, f sp.Domain = .error err) ↔
        ∃ sp ∈ c.IPSet.Rule, (sp.SetName4 ≠ "" ∨ sp.SetName6 ≠ "") ∧
          ∃ err, f sp.Domain = .error err := by
      constructor
      · rintro ⟨sp, hsp, herr⟩
        obtain ⟨hin, hkeep⟩ := List.mem_filter.mp hsp
        exact ⟨sp, hin, by simpa [hasSetName] using hkeep, herr⟩
      · rintro ⟨sp, hin, hne, herr⟩
        exact ⟨sp, List.mem_filter.mpr ⟨hin, by simpa [hasSetName] using hne⟩, herr⟩
    rw [← hmem, ← hpure]
    rcases (buildRules (fun d (u : Unit) => (f d, u))
      (c.IPSet.Rule.filter hasSetName) ()).1 with x | rs
    · obtain ⟨d, err⟩ := x
      simp [finish]
    · simp [finish]

/-- C8, at an input: the first specification names no set and the unreadable list it
points to is not opened; the third one names a set and the same list, and fails the
compilation: an error and no handler are returned, after two constructions. -/
theorem NewIPSetHandler_error_iff_witness :
    (observeNew failingNewDomainPolicies brokenConfig ()).2.map
        (fun x => (x.1, x.2.toOption.isSome)) =
      [("example.com.", true), ("missing.list", false)] ∧
    (observeNew failingNewDomainPolicies brokenConfig ()).1.2 =
      some (.wrapError
        "failed to init ipset domain policies missing.list: open missing.list: no such file"
        (.errorString "open missing.list: no such file")) ∧
    (observeNew failingNewDomainPolicies brokenConfig ()).1.1 = none :=
  ⟨by decide, by decide,
    (NewIPSetHandler_error_iff failingNewDomainPolicies brokenConfig ()).2.1 (by decide)⟩

/-- C9: with a primitive that always succeeds, the calls of `ApplyIPSet` are the calls
made for the first rule alone, then those made for the second rule alone, and so on in
rule order; nothing is merged or dropped across rules. -/
theorem ApplyIPSet_rules_concat {σ : Type} (ipString : NetIP → String)
    (AddCIDR : Entry → σ → Option GoError × σ) (h : Handler) (q r : Msg) (s : σ)
    (hok : ∀ e s, (AddCIDR e s).1 = none) :
    (observe ipString AddCIDR h q r s).1 = none ∧
    (observe ipString AddCIDR h q r s).2 =
      h.rules.flatMap (fun ru => (observe ipString AddCIDR { h with rules := [ru] } q r s).2) := by
  have hone : ∀ ru : rule,
      (observe ipString AddCIDR { h with rules := [ru] } q r s).2 =
        (ruleEntries h ru q r).map (fun e => (e, none)) := by
    intro ru
    have hplan : plannedEntries { h with rules := [ru] } q r = ruleEntries h ru q r := by
      simp [plannedEntries, ruleEntries_rules]
    rw [observe_eq, hplan]
    exact (callTrace_of_ok AddCIDR hok _ s).1
  have htr := callTrace_of_ok AddCIDR hok (plannedEntries h q r) s
  rw [observe_eq]
  refine ⟨by simp [htr.2, wrapFailure], ?_⟩
  show callTrace AddCIDR (plannedEntries h q r) s = _
  rw [htr.1]
  simp only [hone, plannedEntries]
  generalize h.rules = rules
  induction rules with
  | nil => rfl
  | cons ru rest ih => simp [List.flatMap_cons, ih]

/-- C9, at an input: two rules accept `example.com.` and target the same sets; both
fire, and each entry is passed twice. -/
theorem ApplyIPSet_rules_concat_witness :
    (observe sampleIPString okAddCIDR twinHandler exampleQuery exampleResponse ()).2.map
        (fun x => (x.1.IP, x.1.SetName)) =
      [(ip1234, "cn4"), (ipLoop6, "cn6"), (ip1234, "cn4"), (ipLoop6, "cn6")] ∧
    (observe sampleIPString okAddCIDR twinHandler exampleQuery exampleResponse ()).1 = none ∧
    (observe sampleIPString okAddCIDR twinHandler exampleQuery exampleResponse ()).2 =
      twinHandler.rules.flatMap (fun ru =>
        (observe sampleIPString okAddCIDR { twinHandler with rules := [ru] } exampleQuery
          exampleResponse ()).2) :=
  ⟨by decide,
    ApplyIPSet_rules_concat sampleIPString okAddCIDR twinHandler exampleQuery exampleResponse ()
      (fun _ _ => rfl)⟩

/-- C10: when `ApplyIPSet` returns an error, the last call of the primitive failed, all
earlier calls succeeded, and the error returned is the `fmt.Errorf` value whose text
names the address and the set name of the entry of that last call and which wraps the
error the primitive returned. -/
theorem ApplyIPSet_error_identifies {σ : Type} (ipString : NetIP → String)
    (AddCIDR : Entry → σ → Option GoError × σ) (h : Handler) (q r : Msg) (s : σ)
    (e : GoError) (herr : (observe ipString AddCIDR h q r s).1 = some e) :
    ∃ (entry : Entry) (err : GoError) (done : List Entry),
      (observe ipString AddCIDR h q r s).2 =
        done.map (fun x => (x, none)) ++ [(entry, some err)] ∧
      e = .wrapError
        ("failed to add ip " ++ ipString entry.IP ++ " to set " ++ entry.SetName ++ ": " ++
          err.Error) err ∧
      e.Unwrap = some err ∧
      (ApplyIPSet ipString AddCIDR h q r s).1 = some e := by
  rw [observe_eq] at herr ⊢
  rw [ApplyIPSet_eq_inject]
  have hres := callTrace_result AddCIDR (plannedEntries h q r) s
  rcases hinj : (inject AddCIDR (plannedEntries h q r) s).1 with _ | ⟨entry, err⟩
  · rw [hinj] at herr
    simp [wrapFailure] at herr
  · rw [hinj] at hres herr
    obtain ⟨done, hdone⟩ := hres
    simp only [wrapFailure, Option.some.injEq] at herr
    subst herr
    exact ⟨entry, err, done, hdone, rfl, rfl, rfl⟩

/-- C10, at an input: the primitive fails on `5.6.7.8`, the second of three records;
the error names `5.6.7.8` and `cn4` and wraps the error of the primitive. -/
theorem ApplyIPSet_error_identifies_witness :
    (observe sampleIPString failOnSecond exampleHandler exampleQuery threeAResponse 0).1 =
      some (.wrapError "failed to add ip 5.6.7.8 to set cn4: no such set"
        (.errorString "no such set")) ∧
    ∃ (entry : Entry) (err : GoError) (done : List Entry),
      (observe sampleIPString failOnSecond exampleHandler exampleQuery threeAResponse 0).2 =
        done.map (fun x => (x, none)) ++ [(entry, some err)] ∧
      GoError.wrapError "failed to add ip 5.6.7.8 to set cn4: no such set"
          (.errorString "no such set") =
        .wrapError
          ("failed to add ip " ++ sampleIPString entry.IP ++ " to set " ++ entry.SetName ++
            ": " ++ err.Error) err ∧
      (GoError.wrapError "failed to add ip 5.6.7.8 to set cn4: no such set"
          (.errorString "no such set")).Unwrap = some err ∧
      (ApplyIPSet sampleIPString failOnSecond exampleHandler exampleQuery threeAResponse 0).1 =
        some (.wrapError "failed to add ip 5.6.7.8 to set cn4: no such set"
          (.errorString "no such set")) :=
  ⟨by decide,
    ApplyIPSet_error_identifies sampleIPString failOnSecond exampleHandler exampleQuery
      threeAResponse 0 _ (by decide)⟩

/-- C11: when `NewIPSetHandler` returns an error, the last construction made failed and
all earlier ones succeeded; the failing construction is for the first specification,
in declaration order among those naming a set, whose construction failed; the error is
the `fmt.Errorf` value whose text names the domain list of that specification and which
wraps the construction error; no handler is returned and the specifications after it
are not constructed. -/
theorem NewIPSetHandler_error_identifies {τ : Type}
    (NewDomainPolicies : String → τ → Except GoError DomainPolicies × τ)
    (c : Config) (t : τ) (e : GoError)
    (herr : (observeNew NewDomainPolicies c t).1.2 = some e) :
    ∃ (before : List IPSetRuleConfig) (sp : IPSetRuleConfig) (after : List IPSetRuleConfig)
      (done : List Construction) (err : GoError),
      c.IPSet.Rule.filter hasSetName = before ++ sp :: after ∧
      (observeNew NewDomainPolicies c t).2 = done ++ [(sp.Domain, .error err)] ∧
      done.map Prod.fst = before.map (fun x => x.Domain) ∧
      (∀ x ∈ done, ∃ dps, x.2 = .ok dps) ∧
      e = .wrapError
        ("failed to init ipset domain policies " ++ sp.Domain ++ ": " ++ err.Error) err ∧
      e.Unwrap = some err ∧
      (NewIPSetHandler NewDomainPolicies c t).1 = (none, some e) := by
  rw [observeNew_eq] at herr ⊢
  rw [NewIPSetHandler_eq]
  rcases hb : (buildRules NewDomainPolicies (c.IPSet.Rule.filter hasSetName) t).1 with x | rs
  · obtain ⟨d, err⟩ := x
    obtain ⟨before, sp, after, done, hspecs, hdom, htrace, hfst, hall⟩ :=
      buildRules_error NewDomainPolicies _ t d err hb
    rw [hb] at herr
    simp only [finish, Option.some.injEq] at herr
    subst herr hdom
    exact ⟨before, sp, after, done, err, hspecs, htrace, hfst, hall, rfl, rfl, rfl⟩
  · rw [hb] at herr
    simp [finish] at herr

/-- C11, at an input: of the three specifications that name a set, the second points to
the unreadable list; the error names `missing.list`, wraps the error of the constructor,
and the third specification is not constructed. -/
theorem NewIPSetHandler_error_identifies_witness :
    (observeNew failingNewDomainPolicies brokenConfig ()).2.map
        (fun x => (x.1, x.2.toOption.isSome)) =
      [("example.com.", true), ("missing.list", false)] ∧
    ∃ (before : List IPSetRuleConfig) (sp : IPSetRuleConfig) (after : List IPSetRuleConfig)
      (done : List Construction) (err : GoError),
      brokenConfig.IPSet.Rule.filter hasSetName = before ++ sp :: after ∧
      (observeNew failingNewDomainPolicies brokenConfig ()).2 =
        done ++ [(sp.Domain, .error err)] ∧
      done.map Prod.fst = before.map (fun x => x.Domain) ∧
      (∀ x ∈ done, ∃ dps, x.2 = .ok dps) ∧
      GoError.wrapError
          "failed to init ipset domain policies missing.list: open missing.list: no such file"
          (.errorString "open missing.list: no such file") =
        .wrapError
          ("failed to init ipset domain policies " ++ sp.Domain ++ ": " ++ err.Error) err ∧
      (GoError.wrapError
          "failed to init ipset domain policies missing.list: open missing.list: no such file"
          (.errorString "open missing.list: no such file")).Unwrap = some err ∧
      (NewIPSetHandler failingNewDomainPolicies brokenConfig ()).1 =
        (none, some (.wrapError
          "failed to init ipset domain policies missing.list: open missing.list: no such file"
          (.errorString "open missing.list: no such file"))) :=
  ⟨by decide,
    NewIPSetHandler_error_identifies failingNewDomainPolicies brokenConfig () _ (by decide)⟩

/-- C12 as stated fails: the configuration with the masks `200/200` is accepted by
`NewIPSetHandler`, and the handler passes the mask 200 for the `A` record and for the
`AAAA` record, outside `[0,32]` and `[0,128]`. -/
theorem AddCIDR_mask_range_counterexample :
    (NewIPSetHandler sampleNewDomainPolicies wideMaskConfig ()).1.2 = none ∧
    (NewIPSetHandler sampleNewDomainPolicies wideMaskConfig ()).1.1.isSome = true ∧
    compiledMasks wideMaskConfig = [(false, 200), (true, 200)] ∧
    ¬ (∀ call ∈ compiledMasks wideMaskConfig,
        (call.1 = false → call.2 ≤ 32) ∧ (call.1 = true → call.2 ≤ 128)) :=
  ⟨by decide, by decide, by decide, by decide⟩

/-- C12, amended: for a handler returned by `NewIPSetHandler`, the mask passed to the
primitive is a `uint8`, at most 255; it is at most 32 for every IPv4 entry when the
configured `Mask4` is at most 32, and at most 128 for every IPv6 entry when the
configured `Mask6` is at most 128. -/
theorem AddCIDR_mask_range {τ σ : Type}
    (NewDomainPolicies : String → τ → Except GoError DomainPolicies × τ)
    (c : Config) (t : τ) (h : Handler)
    (hsome : (NewIPSetHandler NewDomainPolicies c t).1.1 = some h)
    (ipString : NetIP → String) (AddCIDR : Entry → σ → Option GoError × σ)
    (q r : Msg) (s : σ) :
    ∀ call ∈ (observe ipString AddCIDR h q r s).2,
      call.1.Mask.val ≤ 255 ∧
      (call.1.IsNET6 = false → c.IPSet.Mask4.val ≤ 32 → call.1.Mask.val ≤ 32) ∧
      (call.1.IsNET6 = true → c.IPSet.Mask6.val ≤ 128 → call.1.Mask.val ≤ 128) := by
  intro call hcall
  obtain ⟨rs, hh⟩ := NewIPSetHandler_some NewDomainPolicies c t h hsome
  have h4 : h.mask4 = if c.IPSet.Mask4 = 0 then 24 else c.IPSet.Mask4 := by
    rw [hh]
    exact initHandler_mask4 c
  have h6 : h.mask6 = if c.IPSet.Mask6 = 0 then 32 else c.IPSet.Mask6 := by
    rw [hh]
    exact initHandler_mask6 c
  obtain ⟨ru, -, -, rr, -, hsel⟩ := mem_observe ipString AddCIDR h q r s call hcall
  refine ⟨Nat.le_of_lt_succ call.1.Mask.isLt, ?_, ?_⟩
  · intro hfam hle
    rcases (selectEntry_some h ru rr call.1 hsel).2 with ⟨a, -, hea⟩ | ⟨a, -, hea⟩
    · rw [hea]
      show h.mask4.val ≤ 32
      rw [h4]
      split_ifs
      · decide
      · exact hle
    · rw [hea] at hfam
      cases hfam
  · intro hfam hle
    rcases (selectEntry_some h ru rr call.1 hsel).2 with ⟨a, -, hea⟩ | ⟨a, -, hea⟩
    · rw [hea] at hfam
      cases hfam
    · rw [hea]
      show h.mask6.val ≤ 128
      rw [h6]
      split_ifs
      · decide
      · exact hle

/-- C12, amended, at an input: the masks `0/64` compile to `24/64`, and the calls for
`A 1.2.3.4` and `AAAA ::1` carry 24 and 64. -/
theorem AddCIDR_mask_range_witness :
    (observe sampleIPString okAddCIDR ⟨true, 24, 64, [exampleRule]⟩ exampleQuery
        exampleResponse ()).2.map (fun call => (call.1.IsNET6, call.1.Mask.val)) =
      [(false, 24), (true, 64)] ∧
    ∀ call ∈ (observe sampleIPString okAddCIDR ⟨true, 24, 64, [exampleRule]⟩ exampleQuery
        exampleResponse ()).2,
      call.1.Mask.val ≤ 255 ∧
      (call.1.IsNET6 = false → (⟨⟨true, 0, 64, [⟨"cn4", "cn6", "example.com."⟩]⟩⟩ :
          Config).IPSet.Mask4.val ≤ 32 → call.1.Mask.val ≤ 32) ∧
      (call.1.IsNET6 = true → (⟨⟨true, 0, 64, [⟨"cn4", "cn6", "example.com."⟩]⟩⟩ :
          Config).IPSet.Mask6.val ≤ 128 → call.1.Mask.val ≤ 128) :=
  ⟨by decide,
    AddCIDR_mask_range sampleNewDomainPolicies
      ⟨⟨true, 0, 64, [⟨"cn4", "cn6", "example.com."⟩]⟩⟩ () ⟨true, 24, 64, [exampleRule]⟩ rfl
      sampleIPString okAddCIDR exampleQuery exampleResponse ()⟩

/-- C13: `ApplyIPSet` returns success exactly when every call of the primitive it made
succeeded. On success the entries passed are all the injections of all matched rules,
none skipped: rule after rule, for each rule whose matcher accepts a question name, or
with `checkCNAME` the target of a `CNAME` record, the `A` records as
`(address, setName4, mask4, IPv4)` when `setName4` is non-empty and the `AAAA` records
as `(address, setName6, mask6, IPv6)` when `setName6` is non-empty, in answer order.
A call in which the matcher of no rule accepts a name, or whose response holds no `A`
or `AAAA` record, returns success without any call. -/
theorem ApplyIPSet_success_iff {σ : Type} (ipString : NetIP → String)
    (AddCIDR : Entry → σ → Option GoError × σ) (h : Handler) (q r : Msg) (s : σ) :
    ((observe ipString AddCIDR h q r s).1 = none ↔
      ∀ c ∈ (observe ipString AddCIDR h q r s).2, c.2 = none) ∧
    ((observe ipString AddCIDR h q r s).1 = none →
      (observe ipString AddCIDR h q r s).2.map Prod.fst =
        h.rules.flatMap (fun ru =>
          if (q.Question.any (fun qu =>
                match ru.domainPolicies.Match qu.Name with
                | some action => decide (action.Mode = ActionMode.PolicyActionAccept)
                | none => false) ||
              (h.checkCAME && r.Answer.any (fun rr =>
                match rr with
                | .CNAME target =>
                  match ru.domainPolicies.Match target with
                  | some action => decide (action.Mode = ActionMode.PolicyActionAccept)
                  | none => false
                | _ => false))) = true
          then
            r.Answer.filterMap (fun rr =>
              match rr with
              | .A a =>
                if ru.setName4 = "" then none
                else some ({ IP := a, SetName := ru.setName4, Mask := h.mask4,
                             IsNET6 := false } : Entry)
              | .AAAA a =>
                if ru.setName6 = "" then none
                else some { IP := a, SetName := ru.setName6, Mask := h.mask6, IsNET6 := true }
              | _ => none)
          else [])) ∧
    ((∀ ru ∈ h.rules,
        (∀ qu ∈ q.Question, ∀ action, ru.domainPolicies.Match qu.Name = some action →
          action.Mode ≠ ActionMode.PolicyActionAccept) ∧
        (h.checkCAME = true → ∀ target, RR.CNAME target ∈ r.Answer →
          ∀ action, ru.domainPolicies.Match target = some action →
            action.Mode ≠ ActionMode.PolicyActionAccept)) →
      observe ipString AddCIDR h q r s = (none, [])) ∧
    ((∀ rr ∈ r.Answer, ∀ a, rr ≠ .A a ∧ rr ≠ .AAAA a) →
      observe ipString AddCIDR h q r s = (none, [])) ∧
    (ApplyIPSet ipString AddCIDR h q r s).1 = (observe ipString AddCIDR h q r s).1 := by
  have hres := callTrace_result AddCIDR (plannedEntries h q r) s
  refine ⟨?_, ?_, ?_, ?_, ?_⟩
  · rw [observe_eq]
    rcases hinj : (inject AddCIDR (plannedEntries h q r) s).1 with _ | ⟨e, err⟩
    · rw [hinj] at hres
      simp only [wrapFailure, true_iff]
      intro c hc
      rw [hres] at hc
      obtain ⟨x, -, hx⟩ := List.mem_map.mp hc
      rw [← hx]
    · rw [hinj] at hres
      obtain ⟨done, hdone⟩ := hres
      simp only [wrapFailure, reduceCtorEq, false_iff]
      intro hall
      have := hall (e, some err) (by simp [hdone])
      cases this
  · rw [observe_eq]
    intro hnone
    rcases hinj : (inject AddCIDR (plannedEntries h q r) s).1 with _ | ⟨e, err⟩
    · rw [hinj] at hres
      simp only [hres, List.map_map]
      show List.map (fun e => e) (plannedEntries h q r) = _
      rw [List.map_id']
      unfold plannedEntries
      congr 1
      funext ru
      rw [ruleEntries, domainMatched_eq_any, selectEntry_eq]
      rfl
    · rw [hinj] at hnone
      simp [wrapFailure] at hnone
  · intro hno
    apply observe_of_planned_nil
    refine flatMap_eq_nil_of_forall _ _ (fun ru hru => ?_)
    obtain ⟨hq, hc⟩ := hno ru hru
    have hm : domainMatched h ru q r = false := by
      rw [domainMatched_of_no_question h ru q r
        (fun qu hqu => accepts_eq_false_of ru qu.Name (hq qu hqu))]
      cases hcheck : h.checkCAME with
      | false => rfl
      | true =>
        cases hcn : matchCNAME ru r.Answer with
        | false => rfl
        | true =>
          obtain ⟨target, hmem, hacc⟩ := (matchCNAME_iff ru r.Answer).mp hcn
          rw [accepts_eq_false_of ru target (hc hcheck target hmem)] at hacc
          cases hacc
    simp [ruleEntries, hm]
  · intro hno
    apply observe_of_planned_nil
    refine flatMap_eq_nil_of_forall _ _ (fun ru _ => ?_)
    simp [ruleEntries, filterMap_selectEntry_eq_nil h ru r.Answer hno]
  · rw [observe_eq, ApplyIPSet_eq_inject]

/-- C13, at inputs. With a primitive that succeeds, three rules (the second unmatched,
the third without IPv4 set) and a response with two address records among four give
success and the three injections of the two matched rules. With a primitive failing on
its second call the result is an error and the journal holds the failed call. A
response without address record, and a query that no rule accepts, give success without
any call. -/
theorem ApplyIPSet_success_iff_witness :
    observe sampleIPString okAddCIDR mixedHandler exampleQuery paddedResponse () =
      (none, [(⟨[1, 2, 3, 4], "cn4", 24, false⟩, none),
              (⟨[0, 0, 0, 0, 0, 0, 0, 0, 0, 0, 0, 0, 0, 0, 0, 1], "cn6", 32, true⟩, none),
              (⟨[0, 0, 0, 0, 0, 0, 0, 0, 0, 0, 0, 0, 0, 0, 0, 1], "cn6", 32, true⟩, none)]) ∧
    (observe sampleIPString okAddCIDR mixedHandler exampleQuery paddedResponse ()).2.map
        Prod.fst =
      [⟨[1, 2, 3, 4], "cn4", 24, false⟩,
       ⟨[0, 0, 0, 0, 0, 0, 0, 0, 0, 0, 0, 0, 0, 0, 0, 1], "cn6", 32, true⟩,
       ⟨[0, 0, 0, 0, 0, 0, 0, 0, 0, 0, 0, 0, 0, 0, 0, 1], "cn6", 32, true⟩] ∧
    (∀ c ∈ (observe sampleIPString okAddCIDR mixedHandler exampleQuery paddedResponse ()).2,
      c.2 = none) ∧
    observe sampleIPString failOnSecond mixedHandler exampleQuery paddedResponse 0 =
      (some (.wrapError "failed to add ip 0.0.0.0.0.0.0.0.0.0.0.0.0.0.0.1 to set cn6: no such set"
          (.errorString "no such set")),
        [(⟨[1, 2, 3, 4], "cn4", 24, false⟩, none),
         (⟨[0, 0, 0, 0, 0, 0, 0, 0, 0, 0, 0, 0, 0, 0, 0, 1], "cn6", 32, true⟩,
           some (.errorString "no such set"))]) ∧
    ¬ (∀ c ∈ (observe sampleIPString failOnSecond mixedHandler exampleQuery paddedResponse 0).2,
      c.2 = none) ∧
    observe sampleIPString failOnSecond mixedHandler exampleQuery noAddressResponse 0 =
      (none, []) ∧
    observe sampleIPString failOnSecond mixedHandler otherQuery exampleResponse 0 =
      (none, []) :=
  ⟨by decide,
    ((ApplyIPSet_success_iff sampleIPString okAddCIDR mixedHandler exampleQuery paddedResponse
      ()).2.1 (by decide)).trans (by decide),
    (ApplyIPSet_success_iff sampleIPString okAddCIDR mixedHandler exampleQuery paddedResponse
      ()).1.mp (by decide),
    by decide,
    fun hall =>
      absurd ((ApplyIPSet_success_iff sampleIPString failOnSecond mixedHandler exampleQuery
        paddedResponse 0).1.mpr hall) (by decide),
    (ApplyIPSet_success_iff sampleIPString failOnSecond mixedHandler exampleQuery
      noAddressResponse 0).2.2.2.1 (by
        intro rr hrr a
        have hcases : rr = .CNAME "cdn.example.net." ∨ rr = .other 16 := by
          simpa [noAddressResponse] using hrr
        rcases hcases with rfl | rfl <;>
          exact ⟨fun hh => (by cases hh), fun hh => (by cases hh)⟩),
    (ApplyIPSet_success_iff sampleIPString failOnSecond mixedHandler otherQuery
      exampleResponse 0).2.2.1 (by
        intro ru hru
        have hcases : ru = exampleRule ∨ ru = aliasRule ∨ ru = v6OnlyRule := by
          simpa [mixedHandler] using hru
        refine ⟨?_, fun hc => absurd hc (by decide)⟩
        intro qu hqu action hmatch
        have hqu' : qu = ⟨"other.test.", 1, 1⟩ := by simpa [otherQuery] using hqu
        subst hqu'
        rcases hcases with rfl | rfl | rfl <;>
          simp [exampleRule, aliasRule, v6OnlyRule, acceptOnly] at hmatch)⟩

/-- C14 as stated fails: the rule `example.com.` accepts the question name, yet on a
response without address records it contributes no call of the primitive. -/
theorem applyRule_contributes_counterexample :
    (∃ qu ∈ exampleQuery.Question, exampleRule.accepts qu.Name = true) ∧
    (applyRule sampleIPString (recordAddCIDR okAddCIDR) exampleHandler exampleRule exampleQuery
        noAddressResponse ([], ())).2.1 = [] ∧
    observe sampleIPString okAddCIDR exampleHandler exampleQuery noAddressResponse () =
      (none, []) :=
  ⟨⟨⟨"example.com.", 1, 1⟩, List.mem_cons_self _ _, by decide⟩, by decide, by decide⟩

/-- C14, amended: a rule is matched exactly when its matcher accepts some question name
of the query, at any position, or `checkCNAME` is true and its matcher accepts the
target of some `CNAME` record of the answer section. The body of the rule loop makes a
call of the primitive exactly when the rule is matched and the answer section holds an
`A` record while `setName4` is non-empty or an `AAAA` record while `setName6` is
non-empty; an unmatched rule makes no call and changes nothing. When some question name
is accepted, the body does the same whatever `checkCNAME` is and whatever the matcher
says on other names: only the set names and the masks count. -/
theorem applyRule_contributes_iff {σ : Type} (ipString : NetIP → String)
    (AddCIDR : Entry → σ → Option GoError × σ) (h : Handler) (ru : rule) (q r : Msg) :
    (domainMatched h ru q r = true ↔
      (∃ qu ∈ q.Question, ru.accepts qu.Name = true) ∨
        (h.checkCAME = true ∧
          ∃ target, RR.CNAME target ∈ r.Answer ∧ ru.accepts target = true)) ∧
    (∀ s : σ,
      (applyRule ipString (recordAddCIDR AddCIDR) h ru q r ([], s)).2.1 ≠ [] ↔
        ((∃ qu ∈ q.Question, ru.accepts qu.Name = true) ∨
          (h.checkCAME = true ∧
            ∃ target, RR.CNAME target ∈ r.Answer ∧ ru.accepts target = true)) ∧
        ((ru.setName4 ≠ "" ∧ ∃ a, RR.A a ∈ r.Answer) ∨
          (ru.setName6 ≠ "" ∧ ∃ a, RR.AAAA a ∈ r.Answer))) ∧
    (¬ ((∃ qu ∈ q.Question, ru.accepts qu.Name = true) ∨
        (h.checkCAME = true ∧
          ∃ target, RR.CNAME target ∈ r.Answer ∧ ru.accepts target = true)) →
      ∀ s : σ, applyRule ipString AddCIDR h ru q r s = (none, s)) ∧
    ((∃ qu ∈ q.Question, ru.accepts qu.Name = true) →
      ∀ (b : Bool) (ru' : rule), ru'.setName4 = ru.setName4 → ru'.setName6 = ru.setName6 →
        (∃ qu ∈ q.Question, ru'.accepts qu.Name = true) →
        ∀ s : σ, applyRule ipString AddCIDR { h with checkCAME := b } ru' q r s =
          applyRule ipString AddCIDR h ru q r s) := by
  refine ⟨domainMatched_iff h ru q r, ?_, ?_, ?_⟩
  · intro s
    rw [applyRule_record, ← domainMatched_iff, ← filterMap_selectEntry_ne_nil_iff h ru]
    simp only [List.nil_append]
    rw [callTrace_ne_nil_iff]
    unfold ruleEntries
    by_cases hm : domainMatched h ru q r = true
    · simp [hm]
    · simp [hm]
  · intro hno s
    have hm : ¬ domainMatched h ru q r = true := fun hmt => hno ((domainMatched_iff h ru q r).mp hmt)
    simp [applyRule, hm]
  · intro hq b ru' h4 h6 hq' s
    have hm := domainMatched_of_question h ru q r hq
    have hm' := domainMatched_of_question { h with checkCAME := b } ru' q r hq'
    rw [applyRule_eq_inject, applyRule_eq_inject]
    have hent : ruleEntries { h with checkCAME := b } ru' q r = ruleEntries h ru q r := by
      simp only [ruleEntries, hm, hm', if_true]
      rw [selectEntry_congr h { h with checkCAME := b } ru ru' h4 h6 rfl rfl]
    rw [hent]

/-- C14, amended, at inputs: on `A 1.2.3.4`, `AAAA ::1` the matched rule `example.com.`
makes calls; the query `other.test.` leaves it unmatched and without effect; and with
the question accepted, switching `checkCNAME` on and taking a matcher that also accepts
`cdn.example.net.` changes nothing. -/
theorem applyRule_contributes_iff_witness :
    (applyRule sampleIPString (recordAddCIDR okAddCIDR) exampleHandler exampleRule exampleQuery
        exampleResponse ([], ())).2.1 ≠ [] ∧
    applyRule sampleIPString okAddCIDR exampleHandler exampleRule otherQuery exampleResponse ()
      = (none, ()) ∧
    applyRule sampleIPString failOnSecond { exampleHandler with checkCAME := true } wideRule
        exampleQuery cnameResponse 0 =
      applyRule sampleIPString failOnSecond exampleHandler exampleRule exampleQuery
        cnameResponse 0 :=
  ⟨((applyRule_contributes_iff sampleIPString okAddCIDR exampleHandler exampleRule exampleQuery
      exampleResponse).2.1 ()).mpr
      ⟨Or.inl ⟨⟨"example.com.", 1, 1⟩, List.mem_cons_self _ _, by decide⟩,
        Or.inl ⟨by decide, ip1234, List.mem_cons_self _ _⟩⟩,
    (applyRule_contributes_iff sampleIPString okAddCIDR exampleHandler exampleRule otherQuery
      exampleResponse).2.2.1 (by
        rintro (⟨qu, hqu, hacc⟩ | ⟨hc, -⟩)
        · have hqu' : qu = ⟨"other.test.", 1, 1⟩ := by simpa [otherQuery] using hqu
          subst hqu'
          exact absurd hacc (by decide)
        · exact absurd hc (by decide)) (),
    (applyRule_contributes_iff sampleIPString failOnSecond exampleHandler exampleRule
      exampleQuery cnameResponse).2.2.2
      ⟨⟨"example.com.", 1, 1⟩, List.mem_cons_self _ _, by decide⟩ true wideRule rfl rfl
      ⟨⟨"example.com.", 1, 1⟩, List.mem_cons_self _ _, by decide⟩ 0⟩

/-- C15: every call of the primitive carries the mask of the handler for its family,
`mask4` when `IsNET6` is false and `mask6` when it is true, whichever rule made it; and
the set name of a call made by the body of the rule loop is the set name of that rule
for the same family. -/
theorem AddCIDR_family_mask {σ : Type} (ipString : NetIP → String)
    (AddCIDR : Entry → σ → Option GoError × σ) (h : Handler) (q r : Msg) (s : σ) :
    (∀ c ∈ (observe ipString AddCIDR h q r s).2,
      (c.1.IsNET6 = false → c.1.Mask = h.mask4) ∧ (c.1.IsNET6 = true → c.1.Mask = h.mask6)) ∧
    (∀ ru : rule,
      ∀ c ∈ (applyRule ipString (recordAddCIDR AddCIDR) h ru q r ([], s)).2.1,
        (c.1.IsNET6 = false → c.1.Mask = h.mask4 ∧ c.1.SetName = ru.setName4) ∧
        (c.1.IsNET6 = true → c.1.Mask = h.mask6 ∧ c.1.SetName = ru.setName6)) := by
  constructor
  · intro c hc
    obtain ⟨ru, -, -, rr, -, hsel⟩ := mem_observe ipString AddCIDR h q r s c hc
    rcases (selectEntry_some h ru rr c.1 hsel).2 with ⟨a, -, hea⟩ | ⟨a, -, hea⟩
    · rw [hea]
      exact ⟨fun _ => rfl, fun hfam => by cases hfam⟩
    · rw [hea]
      exact ⟨fun hfam => (by cases hfam), fun _ => rfl⟩
  · intro ru c hc
    obtain ⟨-, rr, -, hsel⟩ := mem_applyRule_record ipString AddCIDR h ru q r s c hc
    rcases (selectEntry_some h ru rr c.1 hsel).2 with ⟨a, -, hea⟩ | ⟨a, -, hea⟩
    · rw [hea]
      exact ⟨fun _ => ⟨rfl, rfl⟩, fun hfam => by cases hfam⟩
    · rw [hea]
      exact ⟨fun hfam => (by cases hfam), fun _ => ⟨rfl, rfl⟩⟩

/-- C15, at an input: two rules with different sets; all four calls carry the masks
`24` and `32` of the handler, and each the set of its rule and family. -/
theorem AddCIDR_family_mask_witness :
    (observe sampleIPString okAddCIDR ⟨false, 24, 32, [exampleRule, ⟨"alt4", "alt6",
        acceptOnly "example.com."⟩]⟩ exampleQuery exampleResponse ()).2.map
        (fun c => (c.1.IsNET6, c.1.Mask, c.1.SetName)) =
      [(false, 24, "cn4"), (true, 32, "cn6"), (false, 24, "alt4"), (true, 32, "alt6")] ∧
    ∀ c ∈ (observe sampleIPString okAddCIDR ⟨false, 24, 32, [exampleRule, ⟨"alt4", "alt6",
        acceptOnly "example.com."⟩]⟩ exampleQuery exampleResponse ()).2,
      (c.1.IsNET6 = false → c.1.Mask = 24) ∧ (c.1.IsNET6 = true → c.1.Mask = 32) :=
  ⟨by decide,
    (AddCIDR_family_mask sampleIPString okAddCIDR ⟨false, 24, 32, [exampleRule, ⟨"alt4", "alt6",
      acceptOnly "example.com."⟩]⟩ exampleQuery exampleResponse ()).1⟩

/-- C17: for every configuration, the two masks of a handler returned by
`NewIPSetHandler` are non-zero, so no call of the primitive made through that handler
carries the mask 0. -/
theorem NewIPSetHandler_masks_nonzero {τ σ : Type}
    (NewDomainPolicies : String → τ → Except GoError DomainPolicies × τ)
    (c : Config) (t : τ) (h : Handler)
    (hsome : (NewIPSetHandler NewDomainPolicies c t).1.1 = some h)
    (ipString : NetIP → String) (AddCIDR : Entry → σ → Option GoError × σ)
    (q r : Msg) (s : σ) :
    h.mask4 ≠ 0 ∧ h.mask6 ≠ 0 ∧
    ∀ call ∈ (observe ipString AddCIDR h q r s).2, call.1.Mask ≠ 0 := by
  obtain ⟨rs, hh⟩ := NewIPSetHandler_some NewDomainPolicies c t h hsome
  have h4 : h.mask4 ≠ 0 := by
    have : h.mask4 = if c.IPSet.Mask4 = 0 then 24 else c.IPSet.Mask4 := by
      rw [hh]
      exact initHandler_mask4 c
    rw [this]
    split_ifs with hz
    · decide
    · exact hz
  have h6 : h.mask6 ≠ 0 := by
    have : h.mask6 = if c.IPSet.Mask6 = 0 then 32 else c.IPSet.Mask6 := by
      rw [hh]
      exact initHandler_mask6 c
    rw [this]
    split_ifs with hz
    · decide
    · exact hz
  refine ⟨h4, h6, ?_⟩
  intro call hcall
  obtain ⟨ru, -, -, rr, -, hsel⟩ := mem_observe ipString AddCIDR h q r s call hcall
  rcases (selectEntry_some h ru rr call.1 hsel).2 with ⟨a, -, hea⟩ | ⟨a, -, hea⟩
  · rw [hea]
    exact h4
  · rw [hea]
    exact h6

/-- C17, at an input: the masks `0/0` compile to `24/32`, and the calls made through
the handler carry 24 and 32. -/
theorem NewIPSetHandler_masks_nonzero_witness :
    compiledMasks exampleConfig = [(false, 24), (true, 32)] ∧
    exampleHandler.mask4 ≠ 0 ∧ exampleHandler.mask6 ≠ 0 ∧
    ∀ call ∈ (observe sampleIPString okAddCIDR exampleHandler exampleQuery exampleResponse ()).2,
      call.1.Mask ≠ 0 :=
  ⟨by decide,
    NewIPSetHandler_masks_nonzero sampleNewDomainPolicies exampleConfig () exampleHandler rfl
      sampleIPString okAddCIDR exampleQuery exampleResponse ()⟩

/-- C16: two responses whose answer sections agree once the records that are neither
`A`, `AAAA` nor `CNAME` are taken out give the same result, the same calls and the
same state, whatever the primitive does; so removing or inserting such records changes
nothing. Every call is for the address of an `A` or `AAAA` record of the answer section,
and a `CNAME` record yields no entry. -/
theorem ApplyIPSet_ignores_other {σ : Type} (ipString : NetIP → String)
    (AddCIDR : Entry → σ → Option GoError × σ) (h : Handler) (q r r' : Msg) (s : σ)
    (hsame : r.Answer.filter (fun rr => !isOther rr) =
      r'.Answer.filter (fun rr => !isOther rr)) :
    ApplyIPSet ipString AddCIDR h q r s = ApplyIPSet ipString AddCIDR h q r' s ∧
    observe ipString AddCIDR h q r s = observe ipString AddCIDR h q r' s ∧
    (∀ c ∈ (observe ipString AddCIDR h q r s).2,
      (∃ a, RR.A a ∈ r.Answer ∧ c.1.IP = a ∧ c.1.IsNET6 = false) ∨
        (∃ a, RR.AAAA a ∈ r.Answer ∧ c.1.IP = a ∧ c.1.IsNET6 = true)) ∧
    (∀ (ru : rule) (target : String),
      newEntry h ru (.CNAME target) = none ∧ selectEntry h ru (.CNAME target) = none) := by
  have hplan : plannedEntries h q r = plannedEntries h q r' := by
    unfold plannedEntries
    generalize h.rules = rules
    induction rules with
    | nil => rfl
    | cons ru rest ih =>
      rw [List.flatMap_cons, List.flatMap_cons, ih, ruleEntries_congr_answer h ru q r r' hsame]
  refine ⟨ApplyIPSet_congr ipString AddCIDR h h q q r r' s hplan, ?_, ?_, ?_⟩
  · rw [observe_eq, observe_eq, hplan]
  · intro c hc
    obtain ⟨ru, -, -, rr, hrr, hsel⟩ := mem_observe ipString AddCIDR h q r s c hc
    rcases (selectEntry_some h ru rr c.1 hsel).2 with ⟨a, hra, hea⟩ | ⟨a, hra, hea⟩
    · rw [hra] at hrr
      rw [hea]
      exact Or.inl ⟨a, hrr, rfl, rfl⟩
    · rw [hra] at hrr
      rw [hea]
      exact Or.inr ⟨a, hrr, rfl, rfl⟩
  · intro ru target
    exact ⟨rfl, rfl⟩

/-- C16, at an input: a text record and a signature record put into the response
`A 1.2.3.4`, `AAAA ::1` change neither the result nor the calls, also when the
primitive fails on its second call. -/
theorem ApplyIPSet_ignores_other_witness :
    observe sampleIPString failOnSecond exampleHandler exampleQuery paddedResponse 0 =
      (some (.wrapError "failed to add ip 0.0.0.0.0.0.0.0.0.0.0.0.0.0.0.1 to set cn6: no such set"
          (.errorString "no such set")),
        [(⟨[1, 2, 3, 4], "cn4", 24, false⟩, none),
         (⟨[0, 0, 0, 0, 0, 0, 0, 0, 0, 0, 0, 0, 0, 0, 0, 1], "cn6", 32, true⟩,
           some (.errorString "no such set"))]) ∧
    ApplyIPSet sampleIPString failOnSecond exampleHandler exampleQuery paddedResponse 0 =
      ApplyIPSet sampleIPString failOnSecond exampleHandler exampleQuery exampleResponse 0 ∧
    observe sampleIPString failOnSecond exampleHandler exampleQuery paddedResponse 0 =
      observe sampleIPString failOnSecond exampleHandler exampleQuery exampleResponse 0 :=
  ⟨by decide,
    (ApplyIPSet_ignores_other sampleIPString failOnSecond exampleHandler exampleQuery
      paddedResponse exampleResponse 0 (by decide)).1,
    (ApplyIPSet_ignores_other sampleIPString failOnSecond exampleHandler exampleQuery
      paddedResponse exampleResponse 0 (by decide)).2.1⟩

/-- C18: one `ApplyIPSet` call makes at most (number of rules) x (number of `A` and
`AAAA` records of the answer section) calls of the primitive, and the body of the rule
loop makes, for any rule, at most one call per such record: its calls are an initial
segment of the entries the rule selects, no more than there are address records. -/
theorem ApplyIPSet_call_count {σ : Type} (ipString : NetIP → String)
    (AddCIDR : Entry → σ → Option GoError × σ) (h : Handler) (q r : Msg) (s : σ) :
    (observe ipString AddCIDR h q r s).2.length ≤
      h.rules.length * (r.Answer.filter isAddress).length ∧
    ∀ (ru : rule) (s' : σ),
      (applyRule ipString (recordAddCIDR AddCIDR) h ru q r ([], s')).2.1.length ≤
        (r.Answer.filter isAddress).length ∧
      (applyRule ipString (recordAddCIDR AddCIDR) h ru q r ([], s')).2.1.map Prod.fst <+:
        r.Answer.filterMap (selectEntry h ru) := by
  constructor
  · rw [observe_eq]
    exact le_trans (callTrace_length_le AddCIDR _ s)
      (flatMap_length_le _ _ _ (fun ru _ => ruleEntries_length_le h ru q r))
  · intro ru s'
    rw [applyRule_record]
    simp only [List.nil_append]
    constructor
    · exact le_trans (callTrace_length_le AddCIDR _ s') (ruleEntries_length_le h ru q r)
    · rw [callTrace_fst]
      unfold ruleEntries
      split_ifs
      · exact List.take_prefix _ _
      · simp

/-- C18, at an input: two rules and two address records among four answer records give
four calls, two per rule. -/
theorem ApplyIPSet_call_count_witness :
    (observe sampleIPString okAddCIDR twinHandler exampleQuery paddedResponse ()).2.length = 4 ∧
    twinHandler.rules.length * (paddedResponse.Answer.filter isAddress).length = 4 ∧
    (observe sampleIPString okAddCIDR twinHandler exampleQuery paddedResponse ()).2.length ≤
      twinHandler.rules.length * (paddedResponse.Answer.filter isAddress).length :=
  ⟨by decide, by decide,
    (ApplyIPSet_call_count sampleIPString okAddCIDR twinHandler exampleQuery paddedResponse
      ()).1⟩

end Ipset
